import Mathlib

/-!
Shallow embedding of scripts/list_forks.py (fork-audit pipeline for the
SysML-v2 repositories) and verification of the frozen claims about it.

Modelling conventions:
* Python strings are modelled as lists of characters (abbrev Str), so that
  the link-header parsing, CSV rendering and URL building done by the script
  can be reasoned about by list induction.
* JSON values returned by the GitHub API are modelled by the inductive Json.
  An environment (Env) maps a fully-built request URL to the parsed response
  body plus response headers, or to an HTTP failure (urllib.error.HTTPError,
  raised by urlopen for non-2xx statuses) or a transport failure
  (urllib.error.URLError that is not an HTTPError).
* Python exceptions are modelled by PyErr.  Computations that may raise
  return Except PyErr.  Network-performing computations additionally record
  the list of URLs they requested: Tr A = List Str x Except PyErr A.
* Python AttributeError and TypeError are not distinguished by the script
  (neither is ever caught), so both are modelled by PyErr.typeError.
-/

set_option maxRecDepth 10000

/-- Python strings, modelled as lists of characters. -/
abbrev Str := List Char

/-- Shorthand turning a Lean string literal into the Str model. -/
def s (x : String) : Str := x.data

/-- JSON values as decoded by json.loads. -/
inductive Json where
  | null : Json
  | bool : Bool → Json
  | num : Int → Json
  | str : Str → Json
  | arr : List Json → Json
  | obj : List (Str × Json) → Json

instance : Inhabited Json := ⟨Json.null⟩

/-- Python exceptions that the script can raise.  fuelOut is an artifact of
the fuel-bounded model of the pagination while-loop (it marks divergence on
an infinite cursor chain); it corresponds to no Python exception and is
never caught by any handler in the model, like a nonterminating loop is
never "caught" by the real program. -/
inductive PyErr where
  | httpError (code : Int) (msg : Str)
  | urlError (msg : Str)
  | valueError (msg : Str)
  | keyError (key : Str)
  | typeError
  | fuelOut
deriving DecidableEq

instance {ε α : Type} [DecidableEq ε] [DecidableEq α] : DecidableEq (Except ε α)
  | .ok a, .ok b =>
    if h : a = b then .isTrue (by rw [h]) else .isFalse (by intro hh; cases hh; exact h rfl)
  | .ok _, .error _ => .isFalse (by intro hh; cases hh)
  | .error _, .ok _ => .isFalse (by intro hh; cases hh)
  | .error e, .error f =>
    if h : e = f then .isTrue (by rw [h]) else .isFalse (by intro hh; cases hh; exact h rfl)

/-- Decimal rendering of a natural number, as Python str(). -/
def natToStr (n : Nat) : Str := Nat.toDigits 10 n

/-- Decimal rendering of an integer, as Python str(). -/
def intToStr (n : Int) : Str :=
  if n < 0 then '-' :: natToStr n.natAbs else natToStr n.toNat

/-- Python str() of a JSON value.  The script only ever stringifies the
string and number values the API contract delivers; container and null
renderings are abbreviated placeholders (Python would print their repr),
which no claim exercises. -/
def pyStr : Json → Str
  | .str t => t
  | .num n => intToStr n
  | .bool true => s "True"
  | .bool false => s "False"
  | .null => s "None"
  | .arr _ => s "<list>"
  | .obj _ => s "<dict>"

/-- Python truthiness of a JSON value. -/
def pyTruthy : Json → Bool
  | .null => false
  | .bool b => b
  | .num n => decide (n ≠ 0)
  | .str t => !t.isEmpty
  | .arr l => !l.isEmpty
  | .obj l => !l.isEmpty

/-- Dictionary lookup (first binding wins; Python dicts have unique keys). -/
def jLookup (fs : List (Str × Json)) (k : Str) : Option Json :=
  (fs.find? (fun p => decide (p.1 = k))).map (·.2)

/-- Python subscript d[k]: KeyError when the key is absent, TypeError when
the value is not a dict. -/
def pySubscript (j : Json) (k : Str) : Except PyErr Json :=
  match j with
  | .obj fs =>
    match jLookup fs k with
    | some v => .ok v
    | none => .error (.keyError k)
  | _ => .error .typeError

/-- Chained subscripts d[k1][k2]... -/
def jPath (j : Json) : List Str → Except PyErr Json
  | [] => .ok j
  | k :: ks =>
    match pySubscript j k with
    | .ok v => jPath v ks
    | .error e => .error e

/-- Python d.get(k, default): AttributeError (modelled as typeError) when the
receiver is not a dict. -/
def pyGet (j : Json) (k : Str) (d : Json) : Except PyErr Json :=
  match j with
  | .obj fs => .ok ((jLookup fs k).getD d)
  | _ => .error .typeError

/-- Python d.get(k) or default-string: the source's
fork.get("default_branch") or "main" idiom (any falsy value, including an
absent key and the empty string, falls back). -/
def pyGetOrStr (j : Json) (k : Str) (dflt : Str) : Except PyErr Json :=
  match j with
  | .obj fs =>
    match jLookup fs k with
    | some v => .ok (if pyTruthy v then v else .str dflt)
    | none => .ok (.str dflt)
  | _ => .error .typeError

/-- Characters treated as whitespace by Python str.strip(). -/
def isPySpace (c : Char) : Bool :=
  c = ' ' || c = '\t' || c = '\n' || c = '\x0d' || c = '\x0b' || c = '\x0c'

/-- Python str.strip(chars): remove the given characters from both ends. -/
def pyStrip (p : Char → Bool) (l : Str) : Str :=
  ((l.dropWhile p).reverse.dropWhile p).reverse

/-- Python str.strip() with no argument. -/
def trimPy (l : Str) : Str := pyStrip isPySpace l

/-- Python str.strip("<>"). -/
def stripAngles (l : Str) : Str := pyStrip (fun c => c = '<' || c = '>') l

/-- Python str.split(sep) for a single-character separator. -/
def splitOnChar (c : Char) : Str → List Str
  | [] => [[]]
  | x :: xs =>
    if x = c then [] :: splitOnChar c xs
    else
      match splitOnChar c xs with
      | [] => [[x]]
      | y :: ys => (x :: y) :: ys

/-- Python str.replace("Z", "+00:00") (replaces every occurrence). -/
def replaceZ : Str → Str
  | [] => []
  | c :: rest => if c = 'Z' then s "+00:00" ++ replaceZ rest else c :: replaceZ rest

/-- The literal compared against each rel part of the link header
(the source's string constant). -/
def relNext : Str := s "rel=\"next\""

/-- Scan of the comma-separated link-header parts done by
GitHubClient.paginate: take the first part whose second ;-segment strips to
the literal, and return its first segment stripped of angle brackets. -/
def findNextUrl : List Str → Option Str
  | [] => none
  | part :: rest =>
    match splitOnChar ';' part with
    | s0 :: s1 :: _ =>
      if trimPy s1 = relNext then some (stripAngles (trimPy s0))
      else findNextUrl rest
    | _ => findNextUrl rest

/-- The next-cursor computation of GitHubClient.paginate, lines 64-76 of the
source: an empty header yields no cursor; otherwise the header is split on
commas, each part stripped, and the first part carrying rel="next" yields
its angle-stripped URL. -/
def parseLink (header : Str) : Option Str :=
  if header.isEmpty then none
  else findNextUrl ((splitOnChar ',' header).map trimPy)

/-- Response-header lookup headers.get("Link", ""). -/
def headerGet (hs : List (Str × Str)) (k : Str) : Str :=
  ((hs.find? (fun p => decide (p.1 = k))).map (·.2)).getD []

/-- Result of one HTTP GET as seen by urllib: a decoded JSON body with
response headers, an HTTPError (non-2xx status) or a URLError (transport
failure: connection, DNS, timeout). -/
inductive NetResult where
  | success (body : Json) (headers : List (Str × Str))
  | httpFailure (code : Int) (msg : Str)
  | transportFailure (msg : Str)

/-- A fixed set of API responses: every fully-built request URL is mapped to
the response the remote would serve for it. -/
abbrev Env := Str → NetResult

/-- A network-performing computation: the list of URLs requested, paired
with the result or the exception in flight. -/
abbrev Tr (α : Type) : Type := List Str × Except PyErr α

/-- Return without requesting anything. -/
def Tr.pure (a : α) : Tr α := ([], .ok a)

/-- Lift a pure (non-requesting) Python computation. -/
def Tr.lift (x : Except PyErr α) : Tr α := ([], x)

/-- Sequencing: run the first computation; on an exception it propagates,
otherwise continue, accumulating requested URLs. -/
def Tr.bind (x : Tr α) (f : α → Tr β) : Tr β :=
  match x with
  | (t, .error e) => (t, .error e)
  | (t, .ok a) => (t ++ (f a).1, (f a).2)

/-- Query-string rendering of urllib.parse.urlencode for the parameter
dictionaries the script uses (no characters needing percent-escapes). -/
def urlencode (ps : List (Str × Str)) : Str :=
  List.intercalate (s "&") (ps.map (fun p => p.1 ++ s "=" ++ p.2))

/-- Whether urlparse(url).query is nonempty: a question mark followed by at
least one character (the script's URLs carry no fragments). -/
def hasQuery (u : Str) : Bool :=
  match u.dropWhile (fun c => decide (c ≠ '?')) with
  | _ :: r => !r.isEmpty
  | [] => false

/-- URL building of GitHubClient.request lines 39-42: parameters are
appended only when the dict is nonempty, with ? or & depending on whether
the URL already has a query. -/
def buildUrl (url : Str) (ps : Option (List (Str × Str))) : Str :=
  match ps with
  | some (p :: rest) =>
    url ++ (if hasQuery url then s "&" else s "?") ++ urlencode ((p :: rest))
  | _ => url

/-- GitHubClient.request: build the URL, perform the GET, return body and
headers or raise. -/
def request (env : Env) (url : Str) (ps : Option (List (Str × Str))) :
    Tr (Json × List (Str × Str)) :=
  let u := buildUrl url ps
  ([u],
    match env u with
    | .success b h => .ok (b, h)
    | .httpFailure c m => .error (.httpError c m)
    | .transportFailure m => .error (.urlError m))

/-- Gregorian leap-year test. -/
def isLeap (y : Nat) : Bool := y % 4 = 0 && (y % 100 ≠ 0 || y % 400 = 0)

/-- Length of a month in the proleptic Gregorian calendar. -/
def daysInMonth (y m : Nat) : Nat :=
  if m = 2 then (if isLeap y then 29 else 28)
  else if m = 4 || m = 6 || m = 9 || m = 11 then 30 else 31

/-- Days from the civil epoch 1970-01-01 for a valid proleptic Gregorian
date with year at least 1 (the only years a 4-digit ISO year can carry). -/
def daysFromCivil (y m d : Nat) : Int :=
  let yy := if m ≤ 2 then y - 1 else y
  let era := yy / 400
  let yoe := yy % 400
  let mp := (m + 9) % 12
  let doy := (153 * mp + 2) / 5 + d - 1
  let doe := yoe * 365 + yoe / 4 - yoe / 100 + doy
  (Int.ofNat (era * 146097 + doe)) - 719468

/-- Microseconds since the Unix epoch of an aware datetime, as
datetime.timestamp() computes it (the script's datetimes are aware because
branch dates end in Z; timestamp values in the ranges the script meets are
exactly representable as floats, so Int microseconds is faithful). -/
def tsMicro (y mo d h mi sec frac : Nat) (offSec : Int) : Int :=
  (daysFromCivil y mo d * 86400 + (h * 3600 + mi * 60 + sec : Nat) - offSec) * 1000000
    + frac

/-- Exactly n decimal digits from the front of the string, with the rest. -/
def takeDigits : Nat → Nat → Str → Option (Nat × Str)
  | 0, acc, l => some (acc, l)
  | n + 1, acc, c :: l =>
    if c.isDigit then takeDigits n (acc * 10 + (c.toNat - 48)) l else none
  | _ + 1, _, [] => none

/-- Parse HH[:MM[:SS[.fff or .ffffff]]], the whole string, returning
(hour, minute, second, microseconds), as _parse_hh_mm_ss_ff does. -/
def parseHMS (l : Str) : Option (Nat × Nat × Nat × Nat) :=
  match takeDigits 2 0 l with
  | none => none
  | some (h, r1) =>
    match r1 with
    | [] => some (h, 0, 0, 0)
    | ':' :: r2 =>
      match takeDigits 2 0 r2 with
      | none => none
      | some (mi, r3) =>
        match r3 with
        | [] => some (h, mi, 0, 0)
        | ':' :: r4 =>
          match takeDigits 2 0 r4 with
          | none => none
          | some (sec, r5) =>
            match r5 with
            | [] => some (h, mi, sec, 0)
            | '.' :: r6 =>
              match takeDigits 3 0 r6 with
              | some (v, []) => some (h, mi, sec, v * 1000)
              | _ =>
                match takeDigits 6 0 r6 with
                | some (v, []) => some (h, mi, sec, v)
                | _ => none
            | _ => none
        | _ => none
    | _ => none

/-- Index of the first occurrence of a character. -/
def findCharIdx (c : Char) : Str → Option Nat
  | [] => none
  | x :: xs =>
    if x = c then some 0 else (findCharIdx c xs).map (· + 1)

/-- Split the time string at the timezone sign, preferring a minus sign as
_parse_isoformat_time does; returns (time part, (isNegative, offset part)). -/
def splitAtTz (l : Str) : Str × Option (Bool × Str) :=
  match findCharIdx '-' l with
  | some i => (l.take i, some (true, l.drop (i + 1)))
  | none =>
    match findCharIdx '+' l with
    | some i => (l.take i, some (false, l.drop (i + 1)))
    | none => (l, none)

/-- The ValueError datetime.fromisoformat raises on unparsable input. -/
def invalidIso : PyErr := .valueError (s "Invalid isoformat string")

/-- Model of datetime.fromisoformat (pre-3.11 grammar:
YYYY-MM-DD[*HH[:MM[:SS[.fff or .ffffff]]][(+ or -)HH:MM[:SS]]] with any
single separator character), returning the aware timestamp in microseconds;
a datetime without offset is treated as UTC (the script only meets
Z-suffixed dates, which iso_to_datetime makes aware before this runs).
Offset fractions, which Python also accepts, are not modelled; nothing in
the repository produces them. -/
def parseTz (neg : Bool) (tzs : Str) : Except PyErr Int :=
  if tzs.length = 5 || tzs.length = 8 then
    match parseHMS tzs with
    | some (th, tmi, tsec, 0) =>
      if th ≤ 23 && tmi ≤ 59 && tsec ≤ 59 then
        let off : Int := (th * 3600 + tmi * 60 + tsec : Nat)
        .ok (if neg then -off else off)
      else .error invalidIso
    | _ => .error invalidIso
  else .error invalidIso

/-- Parse the part after the separator character: the time, and the offset
when a timezone sign is present. -/
def parseTimeAndTz (tpart : Str) : Except PyErr (Nat × Nat × Nat × Nat × Int) :=
  match splitAtTz tpart with
  | (tstr, tz) =>
    match parseHMS tstr with
    | some (h, mi, sec, frac) =>
      if h ≤ 23 && mi ≤ 59 && sec ≤ 59 then
        match tz with
        | none => .ok (h, mi, sec, frac, 0)
        | some (neg, tzs) =>
          match parseTz neg tzs with
          | .ok off => .ok (h, mi, sec, frac, off)
          | .error e => .error e
      else .error invalidIso
    | none => .error invalidIso

/-- Full fromisoformat: the date, then optionally any single separator
character and a time with optional offset. -/
def parseIso (l : Str) : Except PyErr Int :=
  match takeDigits 4 0 l with
  | some (y, '-' :: r1) =>
    match takeDigits 2 0 r1 with
    | some (mo, '-' :: r2) =>
      match takeDigits 2 0 r2 with
      | some (d, rest) =>
        if 1 ≤ y && 1 ≤ mo && mo ≤ 12 && 1 ≤ d && d ≤ daysInMonth y mo then
          match rest with
          | [] => .ok (tsMicro y mo d 0 0 0 0 0)
          | _sep :: tpart =>
            match parseTimeAndTz tpart with
            | .ok (h, mi, sec, frac, off) => .ok (tsMicro y mo d h mi sec frac off)
            | .error e => .error e
        else .error invalidIso
      | _ => .error invalidIso
    | _ => .error invalidIso
  | _ => .error invalidIso

/-- The source's iso_to_datetime composed with .timestamp(): replace Z by
+00:00, then parse. -/
def iso_to_datetime (l : Str) : Except PyErr Int := parseIso (replaceZ l)

/-- Timestamp of datetime.min.replace(tzinfo=timezone.utc), the sentinel
main.sort_key uses for rows with an empty last_commit_date. -/
def datetimeMinMicro : Int := tsMicro 1 1 1 0 0 0 0 0

example : iso_to_datetime (s "1970-01-01T00:00:00Z") = .ok 0 := by decide
example : iso_to_datetime (s "2024-01-02T00:00:00Z") = .ok 1704153600000000 := by decide
example : iso_to_datetime (s "2024-06-01T12:30:05Z") = .ok 1717245005000000 := by decide
example : iso_to_datetime (s "2024-06-01T12:30:05+02:00") = .ok 1717237805000000 := by decide
example : datetimeMinMicro = -62135596800000000 := by decide
example : iso_to_datetime (s "not-a-date") = .error invalidIso := by decide
example : iso_to_datetime (s "") = .error invalidIso := by decide

/-- One output row under construction: the dict appended by
collect_fork_data lines 122-131.  Values that come straight out of API JSON
stay as JSON values, as they do in the Python dict. -/
structure Record where
  repo : Str
  fork_owner : Json
  default_branch : Json
  last_commit_date : Json
  stars : Json
  notable_diffs : Str

instance : Inhabited Record := ⟨⟨[], .null, .null, .null, .null, []⟩⟩

/-- Configured constants of the script. -/
def API_ROOT : Str := s "https://api.github.com"

def UPSTREAM_OWNER : Str := s "SysML-v2"

def REPOSITORIES : List Str :=
  [s "SysML-v2-API-Services", s "SysML-v2-Pilot-Implementation", s "SysML-v2-Release"]

/-- URL of the upstream repository metadata fetch (line 87). -/
def repoUrl (rn : Str) : Str := API_ROOT ++ s "/repos/" ++ UPSTREAM_OWNER ++ s "/" ++ rn

/-- URL of the forks listing (line 91). -/
def forksUrl (rn : Str) : Str := repoUrl rn ++ s "/forks"

/-- Query parameters of the forks listing (line 92), in dict insertion
order; urlencode stringifies the integer 100. -/
def forkParams : List (Str × Str) := [(s "per_page", s "100"), (s "sort", s "stargazers")]

/-- URL of the per-fork branch fetch (lines 100-102). -/
def branchUrl (owner nm db : Json) : Str :=
  API_ROOT ++ s "/repos/" ++ pyStr owner ++ s "/" ++ pyStr nm ++ s "/branches/" ++ pyStr db

/-- URL of the per-fork comparison fetch (lines 110-113). -/
def compareUrl (rn : Str) (ub owner db : Json) : Str :=
  API_ROOT ++ s "/repos/" ++ UPSTREAM_OWNER ++ s "/" ++ rn ++ s "/compare/"
    ++ pyStr ub ++ s "..." ++ pyStr owner ++ s ":" ++ pyStr db

/-- Python comparison value > 200 (line 117): defined for numbers and
booleans (Python bools are ints); anything else raises TypeError. -/
def pyGt200 : Json → Except PyErr Bool
  | .num n => .ok (decide (n > 200))
  | .bool b => .ok (decide ((if b then (1 : Int) else 0) > 200))
  | _ => .error .typeError

/-- The notable-diff filter, lines 116-118: keep, in order, the filename of
every file whose change count strictly exceeds 200. -/
def notableDiffsLoop : List Json → Except PyErr (List Json)
  | [] => .ok []
  | f :: rest =>
    match pyGet f (s "changes") (.num 0) with
    | .error e => .error e
    | .ok cv =>
      match pyGt200 cv with
      | .error e => .error e
      | .ok true =>
        match pyGet f (s "filename") (.str []) with
        | .error e => .error e
        | .ok fn => (notableDiffsLoop rest).map (fn :: ·)
      | .ok false => notableDiffsLoop rest

/-- Python ";".join(xs): every element must be a string. -/
def pyJoin (sep : Str) : List Json → Except PyErr Str
  | [] => .ok []
  | [x] =>
    match x with
    | .str t => .ok t
    | _ => .error .typeError
  | x :: y :: rest =>
    match x with
    | .str t =>
      match pyJoin sep (y :: rest) with
      | .ok more => .ok (t ++ sep ++ more)
      | .error e => .error e
    | _ => .error .typeError

/-- Branch-timestamp sub-fetch, lines 103-107: only HTTPError is caught and
degraded to the empty string; transport failures and shape errors (the
chained subscripts) propagate. -/
def branchFetch (env : Env) (u : Str) : Tr Json :=
  match request env u none with
  | (t, .ok (body, _)) =>
    (t, jPath body [s "commit", s "commit", s "committer", s "date"])
  | (t, .error (.httpError _ _)) => (t, .ok (.str []))
  | (t, .error e) => (t, .error e)

/-- Comparison sub-fetch, lines 109-120: only HTTPError is caught and
degraded to the sentinel list; transport failures and shape errors
propagate.  Iterating a non-list "files" value is modelled as TypeError
(Python would iterate the value's elements or keys; no claim reaches it). -/
def compareFetch (env : Env) (u : Str) : Tr (List Json) :=
  match request env u none with
  | (t, .ok (body, _)) =>
    (t,
      match pyGet body (s "files") (.arr []) with
      | .error e => .error e
      | .ok (.arr files) => notableDiffsLoop files
      | .ok _ => .error .typeError)
  | (t, .error (.httpError _ _)) => (t, .ok [.str (s "<compare failed>")])
  | (t, .error e) => (t, .error e)

/-- Per-fork body of collect_fork_data, lines 95-131, in source evaluation
order. -/
def processForkItem (env : Env) (repoName : Str) (upBranch : Json) (fork : Json) :
    Tr Record :=
  Tr.bind (Tr.lift (jPath fork [s "owner", s "login"])) fun owner =>
  Tr.bind (Tr.lift (pyGetOrStr fork (s "default_branch") (s "main"))) fun db =>
  Tr.bind (Tr.lift (pyGet fork (s "stargazers_count") (.num 0))) fun stars =>
  Tr.bind (Tr.lift (pySubscript fork (s "name"))) fun nm =>
  Tr.bind (branchFetch env (branchUrl owner nm db)) fun commitDate =>
  Tr.bind (compareFetch env (compareUrl repoName upBranch owner db)) fun notables =>
  Tr.bind (Tr.lift (pyJoin (s ";") notables)) fun nd =>
  Tr.pure ⟨repoName, owner, db, commitDate, stars, nd⟩

/-- Process the fork items of one page in order, appending one record per
item. -/
def processItems (env : Env) (repoName : Str) (upBranch : Json) :
    List Json → Tr (List Record)
  | [] => Tr.pure []
  | it :: rest =>
    Tr.bind (processForkItem env repoName upBranch it) fun r =>
    Tr.bind (processItems env repoName upBranch rest) fun rs =>
    Tr.pure (r :: rs)

/-- The pagination while-loop of GitHubClient.paginate fused with the
consuming for-loop of collect_fork_data: request a page (raising ValueError
when the body is not a list), process its items, then follow the rel=next
cursor; a falsy (absent or empty) cursor ends the loop.  The fuel bounds
the number of pages; the real loop would spin forever on an infinite cursor
chain, which the model reports as fuelOut. -/
def forkPages (env : Env) (repoName : Str) (upBranch : Json) :
    Nat → Str → Option (List (Str × Str)) → Tr (List Record)
  | 0, _, _ => ([], .error .fuelOut)
  | fuel + 1, url, ps =>
    Tr.bind (request env url ps) fun bh =>
    match bh.1 with
    | .arr items =>
      Tr.bind (processItems env repoName upBranch items) fun recs =>
      match parseLink (headerGet bh.2 (s "Link")) with
      | some u =>
        if u.isEmpty then Tr.pure recs
        else
          Tr.bind (forkPages env repoName upBranch fuel u none) fun more =>
          Tr.pure (recs ++ more)
      | none => Tr.pure recs
    | _ => Tr.lift (.error (.valueError (s "Expected list response for pagination")))

/-- Per-repository body of collect_fork_data, lines 86-131: fetch the
upstream metadata, extract its default branch by direct subscript, then
enumerate and process the forks. -/
def collectRepo (env : Env) (fuel : Nat) (rn : Str) : Tr (List Record) :=
  Tr.bind (request env (repoUrl rn) none) fun bh =>
  Tr.bind (Tr.lift (pySubscript bh.1 (s "default_branch"))) fun ub =>
  forkPages env rn ub fuel (forksUrl rn) (some forkParams)

/-- Loop of collect_fork_data over the configured repository list. -/
def collectRepos (env : Env) (fuel : Nat) : List Str → Tr (List Record)
  | [] => Tr.pure []
  | rn :: rest =>
    Tr.bind (collectRepo env fuel rn) fun rs =>
    Tr.bind (collectRepos env fuel rest) fun more =>
    Tr.pure (rs ++ more)

/-- The whole collect_fork_data. -/
def collect_fork_data (env : Env) (fuel : Nat) : Tr (List Record) :=
  collectRepos env fuel REPOSITORIES

/-- Effective timestamp used by main.sort_key lines 149-153: a falsy
last_commit_date becomes datetime.min in UTC; a truthy non-string would hit
.replace and raise (AttributeError, modelled as typeError). -/
def tsVal (d : Json) : Except PyErr Int :=
  if pyTruthy d then
    match d with
    | .str t => iso_to_datetime t
    | _ => .error .typeError
  else .ok datetimeMinMicro

/-- Negatable stars value of sort_key line 154: ints and bools negate;
anything else raises TypeError. -/
def starsVal : Json → Except PyErr Int
  | .num n => .ok n
  | .bool b => .ok (if b then 1 else 0)
  | _ => .error .typeError

/-- The sort key of main.sort_key, lines 148-154. -/
def sort_key (r : Record) : Except PyErr (Int × Int) :=
  match tsVal r.last_commit_date with
  | .error e => .error e
  | .ok t =>
    match starsVal r.stars with
    | .error e => .error e
    | .ok st => .ok (-t, -st)

/-- Ascending lexicographic comparison of sort keys, as Python compares the
tuples sort_key returns. -/
def keyLe (a b : Int × Int) : Bool :=
  decide (a.1 < b.1) || (decide (a.1 = b.1) && decide (a.2 ≤ b.2))

/-- Key-computation pass of data.sort(key=sort_key): CPython computes every
key in list order before any comparison, so the first raising key aborts
the sort with the list unchanged and nothing emitted. -/
def keyRecords : List Record → Except PyErr (List ((Int × Int) × Record))
  | [] => .ok []
  | r :: rest =>
    match sort_key r with
    | .error e => .error e
    | .ok k =>
      match keyRecords rest with
      | .error e => .error e
      | .ok more => .ok ((k, r) :: more)

/-- Ascending key order on key-decorated records. -/
def entryRel (a b : (Int × Int) × Record) : Prop := keyLe a.1 b.1 = true

instance : DecidableRel entryRel :=
  fun a b => inferInstanceAs (Decidable (keyLe a.1 b.1 = true))

/-- The data.sort(key=sort_key) call of line 156: compute the keys, then
stably sort by ascending key comparison.  A stable sort's output is
uniquely determined by the key order and the input order, so a stable
insertion sort over key-decorated entries is a faithful model of CPython
timsort. -/
def sortRecords (l : List Record) : Except PyErr (List Record) :=
  match keyRecords l with
  | .error e => .error e
  | .ok keyed => .ok ((keyed.insertionSort entryRel).map (·.2))

/-- Whether csv.QUOTE_MINIMAL must quote the field. -/
def csvNeedsQuote (f : Str) : Bool :=
  f.any (fun c => c = ',' || c = '"' || c = '\x0d' || c = '\n')

/-- Double every quote character. -/
def csvEscape (f : Str) : Str :=
  f.foldr (fun c acc => if c = '"' then '"' :: '"' :: acc else c :: acc) []

/-- One CSV field under the default dialect. -/
def csvField (f : Str) : Str :=
  if csvNeedsQuote f then '"' :: (csvEscape f ++ ['"']) else f

/-- One CSV row with the default CRLF terminator. -/
def csvRow (fs : List Str) : Str :=
  List.intercalate (s ",") (fs.map csvField) ++ s "\x0d\n"

/-- The DictWriter fieldnames, lines 160-167. -/
def headerFields : List Str :=
  [s "repo", s "fork_owner", s "default_branch", s "last_commit_date",
   s "stars", s "notable-diffs"]

/-- Projection of a record into its six textual fields in fieldnames order
(csv applies str() to non-string values). -/
def recordFields (r : Record) : List Str :=
  [r.repo, pyStr r.fork_owner, pyStr r.default_branch, pyStr r.last_commit_date,
   pyStr r.stars, r.notable_diffs]

/-- Everything the run writes to stdout: header row then one row per
record, lines 158-171. -/
def csvOutput (rs : List Record) : Str :=
  csvRow headerFields ++ (rs.map (fun r => csvRow (recordFields r))).flatten

/-- Observable outcome of a run that did not die on an uncaught exception:
the exit code, the bytes on stdout, and the diagnostic lines on stderr. -/
structure RunOut where
  exitCode : Nat
  stdout : Str
  stderr : List Str

/-- Python str() of an HTTPError. -/
def httpErrStr (c : Int) (m : Str) : Str :=
  s "HTTP Error " ++ intToStr c ++ s ": " ++ m

/-- Python str() of a URLError. -/
def urlErrStr (m : Str) : Str := s "<urlopen error " ++ m ++ s ">"

/-- The tail of main, lines 139-172, as a function of the collection
outcome: catch HTTPError then URLError (each exiting 1 with a diagnostic on
stderr), otherwise sort, emit CSV and exit 0.  An error value means the
process died on an uncaught exception (which CPython reports with a
traceback on stderr and a nonzero exit). -/
def mainResult : Except PyErr (List Record) → Except PyErr RunOut
  | .error (.httpError c m) =>
    .ok ⟨1, [], [s "GitHub API request failed: " ++ httpErrStr c m]⟩
  | .error (.urlError m) => .ok ⟨1, [], [s "Network error: " ++ urlErrStr m]⟩
  | .error e => .error e
  | .ok data =>
    match sortRecords data with
    | .error e => .error e
    | .ok sorted => .ok ⟨0, csvOutput sorted, []⟩

/-- The main function, lines 135-172: the requests performed are those of
collect_fork_data, and the observable outcome is mainResult of the
collection outcome. -/
def mainRun (env : Env) (fuel : Nat) : Tr RunOut :=
  ((collect_fork_data env fuel).1, mainResult (collect_fork_data env fuel).2)

theorem Tr.bind_mk_ok (t : List Str) (a : α) (f : α → Tr β) :
    Tr.bind (t, Except.ok a) f = (t ++ (f a).1, (f a).2) := rfl

theorem Tr.bind_mk_error (t : List Str) (e : PyErr) (f : α → Tr β) :
    Tr.bind (t, Except.error e) f = (t, Except.error e) := rfl

/-- Boolean well-formedness of a comparison-result file entry: an object
whose changes value, when present, is a number, and whose filename value,
when present, is a string (the shapes the comparison endpoint delivers). -/
def fileWf (f : Json) : Bool :=
  match f with
  | .obj fs =>
    (match jLookup fs (s "changes") with
     | some (.num _) => true
     | some _ => false
     | none => true) &&
    (match jLookup fs (s "filename") with
     | some (.str _) => true
     | some _ => false
     | none => true)
  | _ => false

/-- The change count the script observes for a file entry (absent counts as
0, line 117). -/
def changeCount (f : Json) : Int :=
  match f with
  | .obj fs =>
    match jLookup fs (s "changes") with
    | some (.num n) => n
    | some _ => 0
    | none => 0
  | _ => 0

/-- The filename value the script appends for a file entry (absent becomes
the empty string, line 118). -/
def fileName (f : Json) : Json :=
  match f with
  | .obj fs =>
    match jLookup fs (s "filename") with
    | some v => v
    | none => .str []
  | _ => .str []

theorem notableDiffsLoop_eq (files : List Json) (hwf : ∀ f ∈ files, fileWf f = true) :
    notableDiffsLoop files =
      .ok ((files.filter (fun f => decide (changeCount f > 200))).map fileName) := by
  induction files with
  | nil => rfl
  | cons f rest ih =>
    have hf := hwf f (List.mem_cons_self f rest)
    have ih' := ih (fun g hg => hwf g (List.mem_cons_of_mem f hg))
    cases f with
    | obj fs =>
      cases hc : jLookup fs (s "changes") with
      | none =>
        simp [notableDiffsLoop, pyGet, hc, pyGt200, changeCount, ih']
      | some v =>
        cases v with
        | num n =>
          by_cases hn : n > 200
          · cases hg : jLookup fs (s "filename") with
            | none =>
              simp [notableDiffsLoop, pyGet, hc, pyGt200, hn, changeCount, fileName, hg, ih',
                Except.map]
            | some w =>
              cases w with
              | str t =>
                simp [notableDiffsLoop, pyGet, hc, pyGt200, hn, changeCount, fileName, hg, ih',
                  Except.map]
              | null => simp [fileWf, hc, hg] at hf
              | bool b => simp [fileWf, hc, hg] at hf
              | num m => simp [fileWf, hc, hg] at hf
              | arr l => simp [fileWf, hc, hg] at hf
              | obj o => simp [fileWf, hc, hg] at hf
          · simp [notableDiffsLoop, pyGet, hc, pyGt200, hn, changeCount, ih']
        | null => simp [fileWf, hc] at hf
        | bool b => simp [fileWf, hc] at hf
        | str t => simp [fileWf, hc] at hf
        | arr l => simp [fileWf, hc] at hf
        | obj o => simp [fileWf, hc] at hf
    | null => simp [fileWf] at hf
    | bool b => simp [fileWf] at hf
    | num n => simp [fileWf] at hf
    | str t => simp [fileWf] at hf
    | arr l => simp [fileWf] at hf

/-- C4: for every comparison result (a list of well-shaped file entries), a
file appears in notable_diffs iff its change count strictly exceeds 200;
the output order preserves the input order (the output is the image of a
filter, a sublist of the input's filename image); and notableDiffsLoop is a
pure function of the file list, performing no I/O (it takes no Env). -/
theorem C4_notable_diff_filter (files : List Json) (hwf : ∀ f ∈ files, fileWf f = true) :
    notableDiffsLoop files =
      .ok ((files.filter (fun f => decide (changeCount f > 200))).map fileName) ∧
    ((files.filter (fun f => decide (changeCount f > 200))).map fileName).Sublist
      (files.map fileName) ∧
    ∀ x, x ∈ (files.filter (fun f => decide (changeCount f > 200))).map fileName ↔
      ∃ f ∈ files, changeCount f > 200 ∧ fileName f = x := by
  refine ⟨notableDiffsLoop_eq files hwf, List.Sublist.map fileName (List.filter_sublist files), ?_⟩
  intro x
  simp [List.mem_map, List.mem_filter, decide_eq_true_eq, and_assoc]

/-- Concrete comparison result exercising C4: one file above threshold, one
below, one with no fields at all. -/
def wFiles : List Json :=
  [.obj [(s "filename", .str (s "a.txt")), (s "changes", .num 250)],
   .obj [(s "filename", .str (s "b.txt")), (s "changes", .num 10)],
   .obj []]

theorem C4_witness :
    (∀ f ∈ wFiles, fileWf f = true) ∧
    notableDiffsLoop wFiles =
      .ok ((wFiles.filter (fun f => decide (changeCount f > 200))).map fileName) ∧
    notableDiffsLoop wFiles = .ok [.str (s "a.txt")] := by
  refine ⟨by decide, (C4_notable_diff_filter wFiles (by decide)).1, by rfl⟩

theorem splitOnChar_ne_nil (c : Char) (l : Str) : splitOnChar c l ≠ [] := by
  induction l with
  | nil => simp [splitOnChar]
  | cons x xs ih =>
    by_cases hx : x = c
    · simp [splitOnChar, hx]
    · simp only [splitOnChar, hx, if_false]
      cases h : splitOnChar c xs with
      | nil => exact absurd h ih
      | cons y ys => simp

theorem splitOnChar_eq_single (c : Char) (l : Str) (h : ∀ x ∈ l, x ≠ c) :
    splitOnChar c l = [l] := by
  induction l with
  | nil => rfl
  | cons x xs ih =>
    have hx : ¬x = c := h x (List.mem_cons_self x xs)
    have ih' := ih (fun y hy => h y (List.mem_cons_of_mem x hy))
    simp [splitOnChar, hx, ih']

theorem splitOnChar_append (c : Char) (a b : Str) (h : ∀ x ∈ a, x ≠ c) :
    splitOnChar c (a ++ c :: b) = a :: splitOnChar c b := by
  induction a with
  | nil => simp [splitOnChar]
  | cons x xs ih =>
    have hx : ¬x = c := h x (List.mem_cons_self x xs)
    have ih' := ih (fun y hy => h y (List.mem_cons_of_mem x hy))
    simp [splitOnChar, hx, ih']

theorem splitOnChar_cons_head (c x : Char) (l y : Str) (ys : List Str) (h : ¬x = c)
    (hs : splitOnChar c l = y :: ys) : splitOnChar c (x :: l) = (x :: y) :: ys := by
  simp [splitOnChar, h, hs]

theorem trimPy_cons_space (l : Str) : trimPy (' ' :: l) = trimPy l := by
  simp [trimPy, pyStrip, List.dropWhile_cons, isPySpace]

theorem pyStrip_cons_append (p : Char → Bool) (a b : Char) (l : Str)
    (hp : p a = false) (hb : p b = false) :
    pyStrip p (a :: (l ++ [b])) = a :: (l ++ [b]) := by
  simp [pyStrip, List.dropWhile_cons, hp, hb, List.reverse_append]

/-- The fixed characters between the URL and the relation name in a
well-formed link-header segment. -/
def relMark : Str := ['r', 'e', 'l', '=', '"']

/-- Rendering of one link-header segment of the form
angle-bracketed URL, semicolon, space, rel="NAME". -/
def renderSeg (p : Str × Str) : Str :=
  '<' :: (p.1 ++ ('>' :: ';' :: ' ' :: (relMark ++ (p.2 ++ ['"']))))

/-- Rendering of a whole link header: segments joined by comma-space, as
the remote emits them. -/
def renderLink : List (Str × Str) → Str
  | [] => []
  | [p] => renderSeg p
  | p :: q :: rest => renderSeg p ++ (',' :: ' ' :: renderLink (q :: rest))

/-- A URL that the header syntax can carry verbatim: no separator
characters, no angle brackets, no whitespace. -/
def goodUrl (u : Str) : Bool :=
  u.all (fun c => !(c = ',' || c = ';' || c = '<' || c = '>' || isPySpace c))

/-- A relation name free of the two separator characters. -/
def goodRel (r : Str) : Bool := r.all (fun c => !(c = ',' || c = ';'))

/-- Well-formedness of one (url, rel) segment. -/
def goodSeg (p : Str × Str) : Bool := goodUrl p.1 && goodRel p.2

theorem goodUrl_no_char (u : Str) (h : goodUrl u = true) :
    ∀ x ∈ u, x ≠ ',' ∧ x ≠ ';' ∧ x ≠ '<' ∧ x ≠ '>' ∧ isPySpace x = false := by
  intro x hx
  have hh := (List.all_eq_true.mp h) x hx
  simp at hh
  obtain ⟨⟨⟨⟨h1, h2⟩, h3⟩, h4⟩, h5⟩ := hh
  exact ⟨h1, h2, h3, h4, h5⟩

theorem goodRel_no_char (r : Str) (h : goodRel r = true) :
    ∀ x ∈ r, x ≠ ',' ∧ x ≠ ';' := by
  intro x hx
  have hh := (List.all_eq_true.mp h) x hx
  simp at hh
  exact hh

theorem renderSeg_no_comma (p : Str × Str) (h : goodSeg p = true) :
    ∀ x ∈ renderSeg p, x ≠ ',' := by
  have hg : goodUrl p.1 = true ∧ goodRel p.2 = true := by
    simpa [goodSeg, Bool.and_eq_true] using h
  intro x hx hc
  subst hc
  simp only [renderSeg, List.mem_cons, List.mem_append, relMark] at hx
  rcases hx with h1 | h1 | h1
  · exact absurd h1 (by decide)
  · exact absurd rfl (goodUrl_no_char p.1 hg.1 ',' h1).1
  · rcases h1 with h2 | h2 | h2 | h2 | h2 | h2 | h2 | h2
    all_goals first
      | exact absurd h2 (by decide)
      | exact absurd rfl (goodRel_no_char p.2 hg.2 ',' h2).1

theorem dropWhile_eq_self_head (p : Char → Bool) (l : Str)
    (h : ∀ x, l.head? = some x → p x = false) : l.dropWhile p = l := by
  cases l with
  | nil => rfl
  | cons x xs => simp [List.dropWhile_cons, h x rfl]

theorem seg_split (p : Str × Str) (h : goodSeg p = true) :
    splitOnChar ';' (renderSeg p) =
      ['<' :: (p.1 ++ ['>']), ' ' :: (relMark ++ (p.2 ++ ['"']))] := by
  have hg : goodUrl p.1 = true ∧ goodRel p.2 = true := by
    simpa [goodSeg, Bool.and_eq_true] using h
  have hshape : renderSeg p =
      ('<' :: (p.1 ++ ['>'])) ++ ';' :: (' ' :: (relMark ++ (p.2 ++ ['"']))) := by
    simp [renderSeg]
  rw [hshape, splitOnChar_append]
  · rw [splitOnChar_eq_single]
    intro x hx
    simp only [List.mem_cons, List.mem_append, relMark] at hx
    rcases hx with h1 | h1 | h1
    · exact fun hc => absurd h1 (by simp [hc])
    · rcases h1 with h2 | h2 | h2 | h2 | h2
      all_goals (intro hc; subst hc; exact absurd h2 (by decide))
    · rcases h1 with h2 | h2
      · exact (goodRel_no_char p.2 hg.2 x h2).2
      · rcases h2 with h3 | h3
        · intro hc; subst hc; exact absurd h3 (by decide)
        · cases h3
  · intro x hx
    simp only [List.mem_cons, List.mem_append] at hx
    rcases hx with h1 | h1 | h1
    · intro hc; subst hc; exact absurd h1 (by decide)
    · exact (goodUrl_no_char p.1 hg.1 x h1).2.1
    · rcases h1 with h2 | h2
      · intro hc; subst hc; exact absurd h2 (by decide)
      · cases h2

theorem trim_seg0 (u : Str) : trimPy ('<' :: (u ++ ['>'])) = '<' :: (u ++ ['>']) :=
  pyStrip_cons_append isPySpace '<' '>' u (by decide) (by decide)

theorem stripAngles_seg0 (u : Str) (hg : goodUrl u = true) :
    stripAngles ('<' :: (u ++ ['>'])) = u := by
  cases u with
  | nil => decide
  | cons c cs =>
    have hcz := goodUrl_no_char _ hg c (List.mem_cons_self c cs)
    have hc : ((fun ch => decide (ch = '<') || decide (ch = '>')) c) = false := by
      simp [hcz.2.2.1, hcz.2.2.2.1]
    have e3 : List.dropWhile (fun ch => decide (ch = '<') || decide (ch = '>'))
        ((c :: cs).reverse) = (c :: cs).reverse := by
      apply dropWhile_eq_self_head
      intro x hx
      have hxm : x ∈ c :: cs := by
        rw [← List.mem_reverse]
        exact List.mem_of_mem_head? (Option.mem_def.mpr hx)
      have := goodUrl_no_char _ hg x hxm
      simp [this.2.2.1, this.2.2.2.1]
    have e1 : ('<' :: ((c :: cs) ++ ['>'])).dropWhile
        (fun ch => decide (ch = '<') || decide (ch = '>')) = c :: (cs ++ ['>']) := by
      rw [List.cons_append, List.dropWhile_cons, if_pos (by decide),
        List.dropWhile_cons, if_neg (by simp [hcz.2.2.1, hcz.2.2.2.1])]
    have e2 : (c :: (cs ++ ['>'])).reverse = '>' :: (c :: cs).reverse := by
      rw [← List.cons_append, List.reverse_append]
      rfl
    have e4 : ('>' :: (c :: cs).reverse).dropWhile
        (fun ch => decide (ch = '<') || decide (ch = '>')) = (c :: cs).reverse := by
      rw [List.dropWhile_cons, if_pos (by decide), e3]
    show ((('<' :: ((c :: cs) ++ ['>'])).dropWhile _).reverse.dropWhile _).reverse = c :: cs
    rw [e1, e2, e4, List.reverse_reverse]

theorem trim_seg1 (r : Str) :
    trimPy (' ' :: (relMark ++ (r ++ ['"']))) = relMark ++ (r ++ ['"']) := by
  rw [trimPy_cons_space]
  have hsh : relMark ++ (r ++ ['"']) = 'r' :: ((['e', 'l', '=', '"'] ++ r) ++ ['"']) := by
    simp [relMark]
  rw [hsh]
  exact pyStrip_cons_append isPySpace 'r' '"' _ (by decide) (by decide)

theorem rel_eq_iff (r : Str) :
    (relMark ++ (r ++ ['"']) = relNext) ↔ r = s "next" := by
  constructor
  · intro h
    have h2 : relMark ++ (r ++ ['"']) = relMark ++ (s "next" ++ ['"']) := by
      rw [h]; rfl
    have h3 := List.append_cancel_left h2
    exact List.append_cancel_right h3
  · intro h; subst h; rfl

theorem trim_renderSeg (p : Str × Str) : trimPy (renderSeg p) = renderSeg p := by
  have hsh : renderSeg p = '<' :: ((p.1 ++ ('>' :: ';' :: ' ' :: (relMark ++ p.2))) ++ ['"']) := by
    simp [renderSeg]
  rw [hsh]
  exact pyStrip_cons_append isPySpace '<' '"' _ (by decide) (by decide)

theorem renderLink_parts (segs : List (Str × Str)) (h : ∀ p ∈ segs, goodSeg p = true)
    (hne : segs ≠ []) :
    (splitOnChar ',' (renderLink segs)).map trimPy = segs.map renderSeg := by
  induction segs with
  | nil => exact absurd rfl hne
  | cons p rest ih =>
    cases rest with
    | nil =>
      rw [show renderLink [p] = renderSeg p from rfl]
      rw [splitOnChar_eq_single ',' _ (renderSeg_no_comma p (h p (by simp)))]
      simp [trim_renderSeg]
    | cons q rest' =>
      have hq : ∀ x ∈ (q :: rest'), goodSeg x = true :=
        fun x hx => h x (List.mem_cons_of_mem p hx)
      have ih' := ih hq (by simp)
      rw [show renderLink (p :: q :: rest') =
        renderSeg p ++ (',' :: (' ' :: renderLink (q :: rest'))) from rfl]
      rw [splitOnChar_append ',' _ _ (renderSeg_no_comma p (h p (by simp)))]
      cases hsp : splitOnChar ',' (renderLink (q :: rest')) with
      | nil => exact absurd hsp (splitOnChar_ne_nil ',' _)
      | cons y ys =>
        rw [splitOnChar_cons_head ',' ' ' _ y ys (by decide) hsp]
        rw [hsp] at ih'
        simp only [List.map_cons] at ih' ⊢
        rw [trim_renderSeg, trimPy_cons_space]
        exact congrArg (List.cons (renderSeg p)) ih'

theorem findNext_render (segs : List (Str × Str)) (h : ∀ p ∈ segs, goodSeg p = true) :
    findNextUrl (segs.map renderSeg) =
      (segs.find? (fun p => decide (p.2 = s "next"))).map (·.1) := by
  induction segs with
  | nil => rfl
  | cons p rest ih =>
    have hp := h p (List.mem_cons_self p rest)
    have hg : goodUrl p.1 = true ∧ goodRel p.2 = true := by
      simpa [goodSeg, Bool.and_eq_true] using hp
    have ih' := ih (fun x hx => h x (List.mem_cons_of_mem p hx))
    have hsplit := seg_split p hp
    simp only [List.map_cons]
    by_cases hnext : p.2 = s "next"
    · have ht : trimPy (' ' :: (relMark ++ (p.2 ++ ['"']))) = relNext := by
        rw [trim_seg1]; exact (rel_eq_iff p.2).mpr hnext
      rw [List.find?_cons_of_pos _ (by simpa using hnext)]
      simp [findNextUrl, hsplit, ht, trim_seg0, stripAngles_seg0 p.1 hg.1]
    · have ht : ¬trimPy (' ' :: (relMark ++ (p.2 ++ ['"']))) = relNext := by
        rw [trim_seg1]; exact fun hc => hnext ((rel_eq_iff p.2).mp hc)
      rw [List.find?_cons_of_neg _ (by simpa using hnext)]
      simp [findNextUrl, hsplit, ht, ih']

/-- C6: for every link header made of well-formed segments, the computed
next cursor is the URL of the (first) segment whose rel equals next, and it
is absent exactly when no segment's rel equals next. -/
theorem C6_next_cursor (segs : List (Str × Str)) (h : ∀ p ∈ segs, goodSeg p = true) :
    parseLink (renderLink segs) =
      (segs.find? (fun p => decide (p.2 = s "next"))).map (·.1) ∧
    (parseLink (renderLink segs) = none ↔ ∀ p ∈ segs, p.2 ≠ s "next") := by
  have main : parseLink (renderLink segs) =
      (segs.find? (fun p => decide (p.2 = s "next"))).map (·.1) := by
    cases segs with
    | nil => rfl
    | cons p rest =>
      have hne2 : (renderLink (p :: rest)).isEmpty = false := by
        cases rest <;> simp [renderLink, renderSeg]
      rw [parseLink, if_neg (by simp [hne2])]
      rw [renderLink_parts (p :: rest) h (by simp)]
      exact findNext_render (p :: rest) h
  refine ⟨main, ?_⟩
  rw [main]
  simp [Option.map_eq_none', List.find?_eq_none]

/-- Concrete link header exercising C6: a next segment and a last segment. -/
def wSegs : List (Str × Str) :=
  [(s "https://api.github.com/x/forks?page=2", s "next"),
   (s "https://api.github.com/x/forks?page=7", s "last")]

theorem C6_witness :
    (∀ p ∈ wSegs, goodSeg p = true) ∧
    parseLink (renderLink wSegs) =
      (wSegs.find? (fun p => decide (p.2 = s "next"))).map (·.1) ∧
    parseLink (renderLink wSegs) = some (s "https://api.github.com/x/forks?page=2") := by
  refine ⟨by decide, (C6_next_cursor wSegs (by decide)).1, by decide⟩

theorem keyLe_trans (a b c : Int × Int) (h1 : keyLe a b = true) (h2 : keyLe b c = true) :
    keyLe a c = true := by
  simp only [keyLe, Bool.or_eq_true, Bool.and_eq_true, decide_eq_true_eq] at h1 h2 ⊢
  omega

theorem keyLe_total (a b : Int × Int) : (keyLe a b || keyLe b a) = true := by
  simp only [keyLe, Bool.or_eq_true, Bool.and_eq_true, decide_eq_true_eq]
  omega

instance : IsTrans ((Int × Int) × Record) entryRel :=
  ⟨fun a b c h1 h2 => keyLe_trans a.1 b.1 c.1 h1 h2⟩

instance : IsTotal ((Int × Int) × Record) entryRel :=
  ⟨fun a b => (Bool.or_eq_true _ _).mp (keyLe_total a.1 b.1)⟩

theorem keyRecords_ok (l : List Record) (keyed : List ((Int × Int) × Record))
    (h : keyRecords l = .ok keyed) :
    keyed.map (·.2) = l ∧ ∀ p ∈ keyed, sort_key p.2 = .ok p.1 := by
  induction l generalizing keyed with
  | nil =>
    simp only [keyRecords] at h
    cases h
    exact ⟨rfl, by simp⟩
  | cons r rest ih =>
    simp only [keyRecords] at h
    cases hk : sort_key r with
    | error e => rw [hk] at h; cases h
    | ok k =>
      rw [hk] at h
      cases hr : keyRecords rest with
      | error e => rw [hr] at h; cases h
      | ok more =>
        rw [hr] at h
        cases h
        obtain ⟨h1, h2⟩ := ih more hr
        refine ⟨by simp [h1], ?_⟩
        intro p hp
        rcases List.mem_cons.mp hp with hp1 | hp1
        · subst hp1; exact hk
        · exact h2 p hp1

theorem sort_key_ok (r : Record) (k : Int × Int) (h : sort_key r = .ok k) :
    tsVal r.last_commit_date = .ok (-k.1) ∧ starsVal r.stars = .ok (-k.2) := by
  unfold sort_key at h
  cases ht : tsVal r.last_commit_date with
  | error e => rw [ht] at h; cases h
  | ok t =>
    rw [ht] at h
    cases hs : starsVal r.stars with
    | error e => rw [hs] at h; cases h
    | ok st =>
      rw [hs] at h
      cases h
      constructor <;> simp [ht, hs]

theorem filter_of_map {α β : Type} (f : α → β) (p : β → Bool) (l : List α) :
    (l.map f).filter p = (l.filter (fun a => p (f a))).map f := by
  induction l with
  | nil => rfl
  | cons a t ih => by_cases h : p (f a) <;> simp [h, ih]

theorem insertionSort_filter_key (keyed : List ((Int × Int) × Record)) (k : Int × Int) :
    (keyed.insertionSort entryRel).filter (fun p => decide (p.1 = k)) =
      keyed.filter (fun p => decide (p.1 = k)) := by
  have hall : ∀ p ∈ keyed.filter (fun p => decide (p.1 = k)), p.1 = k := by
    intro p hp
    simpa using List.of_mem_filter hp
  have hpair : (keyed.filter (fun p => decide (p.1 = k))).Pairwise entryRel := by
    apply List.pairwise_of_forall_mem_list
    intro a ha b hb
    show keyLe a.1 b.1 = true
    rw [hall a ha, hall b hb]
    simp [keyLe]
  have hsub : (keyed.filter (fun p => decide (p.1 = k))).Sublist
      (keyed.insertionSort entryRel) :=
    List.sublist_insertionSort hpair (List.filter_sublist keyed)
  have hsub2 : (keyed.filter (fun p => decide (p.1 = k))).Sublist
      ((keyed.insertionSort entryRel).filter (fun p => decide (p.1 = k))) := by
    have h2 := List.Sublist.filter (fun p => decide (p.1 = k)) hsub
    rwa [List.filter_eq_self.mpr (fun p hp => by simp [hall p hp])] at h2
  have hperm : ((keyed.insertionSort entryRel).filter
      (fun p => decide (p.1 = k))).Perm (keyed.filter (fun p => decide (p.1 = k))) :=
    (List.perm_insertionSort entryRel keyed).filter _
  exact (hsub2.eq_of_length hperm.length_eq.symm).symm

/-- The ordering the spec asserts between adjacent output rows: timestamps
strictly descend, or tie with stars not increasing (an absent timestamp
counts as the oldest possible value through tsVal). -/
def rankAfter (a b : Record) : Prop :=
  ∃ ta sa tb sb, tsVal a.last_commit_date = .ok ta ∧ starsVal a.stars = .ok sa ∧
    tsVal b.last_commit_date = .ok tb ∧ starsVal b.stars = .ok sb ∧
    (ta > tb ∨ (ta = tb ∧ sa ≥ sb))

/-- C3: the Ranker's output is a permutation of its input, every pair of
adjacent output rows descends by (timestamp, stars) with absent timestamps
counting as the oldest value, and the sort is stable: rows tied on the full
sort key keep their original relative order. -/
theorem C3_ranker (l out : List Record) (h : sortRecords l = .ok out) :
    out.Perm l ∧ List.Chain' rankAfter out ∧
    ∀ k : Int × Int, out.filter (fun r => decide (sort_key r = .ok k)) =
      l.filter (fun r => decide (sort_key r = .ok k)) := by
  unfold sortRecords at h
  cases hk : keyRecords l with
  | error e => rw [hk] at h; cases h
  | ok keyed =>
    rw [hk] at h
    cases h
    obtain ⟨hmap, hinv⟩ := keyRecords_ok l keyed hk
    have hinvSort : ∀ p ∈ keyed.insertionSort entryRel,
        sort_key p.2 = .ok p.1 := by
      intro p hp
      exact hinv p ((List.mem_insertionSort entryRel).mp hp)
    constructor
    · exact hmap ▸ ((List.perm_insertionSort entryRel keyed).map (·.2))
    constructor
    · have hpw : (keyed.insertionSort entryRel).Pairwise entryRel :=
        List.sorted_insertionSort entryRel keyed
      have hpw2 : (keyed.insertionSort entryRel).Pairwise
          (fun a b => rankAfter a.2 b.2) := by
        apply List.Pairwise.imp_of_mem ?_ hpw
        intro a b ha hb hle
        obtain ⟨hta, hsa⟩ := sort_key_ok a.2 a.1 (hinvSort a ha)
        obtain ⟨htb, hsb⟩ := sort_key_ok b.2 b.1 (hinvSort b hb)
        refine ⟨-a.1.1, -a.1.2, -b.1.1, -b.1.2, hta, hsa, htb, hsb, ?_⟩
        have hle2 : keyLe a.1 b.1 = true := hle
        simp only [keyLe, Bool.or_eq_true, Bool.and_eq_true, decide_eq_true_eq] at hle2
        omega
      have := List.Pairwise.chain' hpw2
      rw [List.chain'_map (fun p : (Int × Int) × Record => p.2)]
      exact this
    · intro k
      have step1 : ((keyed.insertionSort entryRel).map (·.2)).filter
          (fun r => decide (sort_key r = .ok k)) =
          ((keyed.insertionSort entryRel).filter
            (fun p => decide (sort_key p.2 = .ok k))).map (·.2) :=
        filter_of_map _ _ _
      have cong1 : (keyed.insertionSort entryRel).filter
          (fun p => decide (sort_key p.2 = .ok k)) =
          (keyed.insertionSort entryRel).filter
            (fun p => decide (p.1 = k)) := by
        apply List.filter_congr
        intro p hp
        have := hinvSort p hp
        by_cases hpk : p.1 = k
        · simp [this, hpk]
        · simp [this, hpk]
      have cong2 : keyed.filter (fun p => decide (sort_key p.2 = .ok k)) =
          keyed.filter (fun p => decide (p.1 = k)) := by
        apply List.filter_congr
        intro p hp
        have := hinv p hp
        by_cases hpk : p.1 = k
        · simp [this, hpk]
        · simp [this, hpk]
      have step2 : l.filter (fun r => decide (sort_key r = .ok k)) =
          (keyed.filter (fun p => decide (sort_key p.2 = .ok k))).map (·.2) := by
        rw [← hmap, filter_of_map]
      rw [step1, cong1, insertionSort_filter_key, ← cong2, step2]

/-- Concrete records exercising C3: a later-pushed fork, two forks tied on
both keys (stability), and a fork with an absent timestamp. -/
def wRecA : Record :=
  ⟨s "R", .str (s "alice"), .str (s "main"), .str (s "2024-01-02T00:00:00Z"), .num 5, []⟩

def wRecB : Record :=
  ⟨s "R", .str (s "bob"), .str (s "main"), .str (s "2024-06-01T00:00:00Z"), .num 1, []⟩

def wRecC : Record :=
  ⟨s "R", .str (s "carol"), .str (s "main"), .str (s "2024-01-02T00:00:00Z"), .num 5, s "x"⟩

def wRecD : Record :=
  ⟨s "R", .str (s "dan"), .str (s "main"), .str [], .num 9, []⟩

def wRecs : List Record := [wRecA, wRecC, wRecB, wRecD]

theorem C3_witness :
    sortRecords wRecs = .ok [wRecB, wRecA, wRecC, wRecD] ∧
    ([wRecB, wRecA, wRecC, wRecD] : List Record).Perm wRecs ∧
    List.Chain' rankAfter [wRecB, wRecA, wRecC, wRecD] ∧
    ∀ k : Int × Int,
      ([wRecB, wRecA, wRecC, wRecD] : List Record).filter
          (fun r => decide (sort_key r = .ok k)) =
        wRecs.filter (fun r => decide (sort_key r = .ok k)) := by
  have h := C3_ranker wRecs [wRecB, wRecA, wRecC, wRecD] (by rfl)
  exact ⟨by rfl, h.1, h.2.1, h.2.2⟩

/-- Fork item whose branch endpoint will deliver an unparsable date. -/
def badFork : Json := .obj [
  (s "owner", .obj [(s "login", .str (s "alice"))]),
  (s "name", .str (s "F")),
  (s "default_branch", .str (s "dev")),
  (s "stargazers_count", .num 5)]

/-- Environment in which every collection step succeeds but the branch
endpoint delivers the non-ISO date string not-a-date, so the final sort
raises. -/
def envBad : Env := fun u =>
  if u = repoUrl (s "SysML-v2-API-Services") then
    .success (.obj [(s "default_branch", .str (s "main"))]) []
  else if u = repoUrl (s "SysML-v2-Pilot-Implementation") then
    .success (.obj [(s "default_branch", .str (s "main"))]) []
  else if u = repoUrl (s "SysML-v2-Release") then
    .success (.obj [(s "default_branch", .str (s "main"))]) []
  else if u = buildUrl (forksUrl (s "SysML-v2-API-Services")) (some forkParams) then
    .success (.arr [badFork]) []
  else if u = branchUrl (.str (s "alice")) (.str (s "F")) (.str (s "dev")) then
    .success (.obj [(s "commit", .obj [(s "commit", .obj [(s "committer",
      .obj [(s "date", .str (s "not-a-date"))])])])]) []
  else if u = compareUrl (s "SysML-v2-API-Services") (.str (s "main"))
      (.str (s "alice")) (.str (s "dev")) then
    .success (.obj [(s "files", .arr [])]) []
  else if u = buildUrl (forksUrl (s "SysML-v2-Pilot-Implementation")) (some forkParams) then
    .success (.arr []) []
  else if u = buildUrl (forksUrl (s "SysML-v2-Release")) (some forkParams) then
    .success (.arr []) []
  else .transportFailure (s "unexpected request")


/-- C10: the ranking step is partial.  First conjunct: whenever the sort
succeeds, every record whose last_commit_date is a nonempty string carries
a string iso_to_datetime can parse, i.e. the sort key is only defined when
every nonempty timestamp parses.  Remaining conjuncts: in envBad the whole
collection completes (one row, carrying the non-ISO date the branch
endpoint delivered), and the run then dies during the final sort on an
uncaught ValueError from fromisoformat. -/
theorem C10_sort_partiality :
    (∀ (l out : List Record), sortRecords l = .ok out →
      ∀ r ∈ l, ∀ d : Str, r.last_commit_date = .str d → d ≠ [] →
        ∃ t : Int, iso_to_datetime d = .ok t) ∧
    (collect_fork_data envBad 9).2 =
      .ok [⟨s "SysML-v2-API-Services", .str (s "alice"), .str (s "dev"),
            .str (s "not-a-date"), .num 5, []⟩] ∧
    (mainRun envBad 9).2 = .error (.valueError (s "Invalid isoformat string")) := by
  refine ⟨?_, by rfl, by rfl⟩
  intro l out h r hr d hd hne
  unfold sortRecords at h
  cases hk : keyRecords l with
  | error e => rw [hk] at h; cases h
  | ok keyed =>
    obtain ⟨hmap, hinv⟩ := keyRecords_ok l keyed hk
    rw [← hmap] at hr
    obtain ⟨p, hp, hpr⟩ := List.mem_map.mp hr
    have hks := hinv p hp
    obtain ⟨hts, _⟩ := sort_key_ok p.2 p.1 hks
    rw [hpr, hd] at hts
    cases d with
    | nil => exact absurd rfl hne
    | cons c cs =>
      refine ⟨-p.1.1, ?_⟩
      simpa [tsVal, pyTruthy] using hts

theorem C10_witness :
    sortRecords [⟨s "R", .str (s "x"), .str (s "main"),
        .str (s "2024-01-02T03:04:05Z"), .num 1, []⟩] =
      .ok [⟨s "R", .str (s "x"), .str (s "main"),
        .str (s "2024-01-02T03:04:05Z"), .num 1, []⟩] ∧
    (s "2024-01-02T03:04:05Z" ≠ []) ∧
    ∃ t : Int, iso_to_datetime (s "2024-01-02T03:04:05Z") = .ok t := by
  refine ⟨by rfl, by decide, ?_⟩
  exact C10_sort_partiality.1
    [⟨s "R", .str (s "x"), .str (s "main"), .str (s "2024-01-02T03:04:05Z"), .num 1, []⟩]
    [⟨s "R", .str (s "x"), .str (s "main"), .str (s "2024-01-02T03:04:05Z"), .num 1, []⟩]
    (by rfl)
    ⟨s "R", .str (s "x"), .str (s "main"), .str (s "2024-01-02T03:04:05Z"), .num 1, []⟩
    (List.mem_singleton.mpr rfl)
    (s "2024-01-02T03:04:05Z") rfl (by decide)

/-- C7 counterexample environment: the first upstream repository's metadata
object carries no default_branch field. -/
def envC7 : Env := fun u =>
  if u = repoUrl (s "SysML-v2-API-Services") then
    .success (.obj [(s "name", .str (s "SysML-v2-API-Services"))]) []
  else .transportFailure (s "unreachable")

/-- C7 counterexample: with the default_branch field absent from the
upstream metadata, the Collector does not fall back to main; it raises
KeyError, which nothing catches, and the run dies.  This refutes the claim
that the Collector falls back to the literal main for an absent upstream
default_branch. -/
theorem C7_counterexample :
    (mainRun envC7 9).2 = .error (.keyError (s "default_branch")) := by rfl

/-- C7 amended: the Collector extracts the upstream default_branch by
direct subscript, so an absent field raises an uncaught KeyError and aborts
the run; the fall-back to the literal main exists only for each fork item's
default_branch (second conjunct). -/
theorem C7_default_branch (env : Env) (fuel : Nat) (fs : List (Str × Json))
    (hdrs : List (Str × Str))
    (h1 : env (repoUrl (s "SysML-v2-API-Services")) = .success (.obj fs) hdrs)
    (h2 : jLookup fs (s "default_branch") = none) :
    (mainRun env fuel).2 = .error (.keyError (s "default_branch")) ∧
    ∀ fk : List (Str × Json), jLookup fk (s "default_branch") = none →
      pyGetOrStr (.obj fk) (s "default_branch") (s "main") = .ok (.str (s "main")) := by
  constructor
  · simp only [mainRun]
    have hcol : (collect_fork_data env fuel).2 =
        .error (.keyError (s "default_branch")) := by
      simp [collect_fork_data, REPOSITORIES, collectRepos, collectRepo,
        request, buildUrl, h1, Tr.bind, Tr.lift, pySubscript, h2]
    rw [hcol]
    rfl
  · intro fk hfk
    simp [pyGetOrStr, hfk]

theorem C7_witness :
    (mainRun envC7 7).2 = .error (.keyError (s "default_branch")) ∧
    ∀ fk : List (Str × Json), jLookup fk (s "default_branch") = none →
      pyGetOrStr (.obj fk) (s "default_branch") (s "main") = .ok (.str (s "main")) :=
  C7_default_branch envC7 7 [(s "name", .str (s "SysML-v2-API-Services"))] []
    (by rfl) (by rfl)

/-- C8: a pagination response whose body is not a JSON array makes paginate
raise the ValueError of line 60 (first conjunct), and a ValueError escaping
collect_fork_data is caught by neither handler in main, so the run aborts
on it (second conjunct). -/
theorem C8_malformed :
    (∀ (env : Env) (rn : Str) (ub : Json) (fuel : Nat) (url : Str)
        (ps : Option (List (Str × Str))) (body : Json) (hdrs : List (Str × Str)),
      env (buildUrl url ps) = .success body hdrs →
      (∀ its : List Json, body ≠ .arr its) →
      (forkPages env rn ub (fuel + 1) url ps).2 =
        .error (.valueError (s "Expected list response for pagination"))) ∧
    (∀ (env : Env) (fuel : Nat) (t : List Str) (m : Str),
      collect_fork_data env fuel = (t, .error (.valueError m)) →
      mainRun env fuel = (t, .error (.valueError m))) := by
  constructor
  · intro env rn ub fuel url ps body hdrs h1 h2
    cases body with
    | arr its => exact absurd rfl (h2 its)
    | null => simp [forkPages, request, h1, Tr.bind, Tr.lift]
    | bool b => simp [forkPages, request, h1, Tr.bind, Tr.lift]
    | num n => simp [forkPages, request, h1, Tr.bind, Tr.lift]
    | str t => simp [forkPages, request, h1, Tr.bind, Tr.lift]
    | obj fs => simp [forkPages, request, h1, Tr.bind, Tr.lift]
  · intro env fuel t m h
    simp [mainRun, mainResult, h]

/-- C8 witness environment: the forks listing answers with a JSON object
instead of an array. -/
def envC8 : Env := fun u =>
  if u = repoUrl (s "SysML-v2-API-Services") then
    .success (.obj [(s "default_branch", .str (s "main"))]) []
  else if u = buildUrl (forksUrl (s "SysML-v2-API-Services")) (some forkParams) then
    .success (.obj [(s "message", .str (s "rate limited"))]) []
  else .transportFailure (s "unreachable")

theorem C8_witness :
    (forkPages envC8 (s "SysML-v2-API-Services") (.str (s "main")) 9
        (forksUrl (s "SysML-v2-API-Services")) (some forkParams)).2 =
      .error (.valueError (s "Expected list response for pagination")) ∧
    mainRun envC8 5 = ((collect_fork_data envC8 5).1,
      .error (.valueError (s "Expected list response for pagination"))) := by
  constructor
  · exact C8_malformed.1 envC8 (s "SysML-v2-API-Services") (.str (s "main")) 8
      (forksUrl (s "SysML-v2-API-Services")) (some forkParams)
      (.obj [(s "message", .str (s "rate limited"))]) [] (by rfl)
      (fun its h => by cases h)
  · exact C8_malformed.2 envC8 5 (collect_fork_data envC8 5).1
      (s "Expected list response for pagination") (by rfl)

/-- Environment in which every required call (upstream metadata, forks
listing, for all three repositories) succeeds, but the single enumerated
fork's branch endpoint is unreachable at the transport level. -/
def envBranchDown : Env := fun u =>
  if u = repoUrl (s "SysML-v2-API-Services") then
    .success (.obj [(s "default_branch", .str (s "main"))]) []
  else if u = repoUrl (s "SysML-v2-Pilot-Implementation") then
    .success (.obj [(s "default_branch", .str (s "main"))]) []
  else if u = repoUrl (s "SysML-v2-Release") then
    .success (.obj [(s "default_branch", .str (s "main"))]) []
  else if u = buildUrl (forksUrl (s "SysML-v2-API-Services")) (some forkParams) then
    .success (.arr [.obj [
      (s "owner", .obj [(s "login", .str (s "alice"))]),
      (s "name", .str (s "F")),
      (s "default_branch", .str (s "dev")),
      (s "stargazers_count", .num 5)]]) []
  else if u = buildUrl (forksUrl (s "SysML-v2-Pilot-Implementation")) (some forkParams) then
    .success (.arr []) []
  else if u = buildUrl (forksUrl (s "SysML-v2-Release")) (some forkParams) then
    .success (.arr []) []
  else .transportFailure (s "fork branch unreachable")

/-- C5 counterexample: in envBranchDown no upstream-metadata or
fork-enumeration request fails (the trace conjunct shows the failing
request was the per-fork branch URL, after both required calls succeeded),
yet the run exits 1, refuting the claim's clause that a run with no such
failure exits 0: a per-fork transport failure also aborts. -/
theorem C5_counterexample :
    (mainRun envBranchDown 9).2 =
      .ok ⟨1, [], [s "Network error: " ++ urlErrStr (s "fork branch unreachable")]⟩ ∧
    (collect_fork_data envBranchDown 9).1 =
      [repoUrl (s "SysML-v2-API-Services"),
       buildUrl (forksUrl (s "SysML-v2-API-Services")) (some forkParams),
       branchUrl (.str (s "alice")) (.str (s "F")) (.str (s "dev"))] :=
  ⟨rfl, rfl⟩

/-- C5 amended: a failure fetching the upstream metadata (HTTP or
transport) or enumerating the forks propagates to main, which writes a
diagnostic to stderr and returns 1 with nothing on stdout; and a run whose
collection and ranking both succeed exits 0 with no diagnostics.  (A run
can also exit nonzero from failures the claim did not list, such as
per-fork transport failures; see the counterexample.) -/
theorem buildUrl_none (url : Str) : buildUrl url none = url := rfl

theorem C5_top_level (env : Env) (fuel : Nat) :
    (∀ c m, env (repoUrl (s "SysML-v2-API-Services")) = .httpFailure c m →
      (mainRun env fuel).2 =
        .ok ⟨1, [], [s "GitHub API request failed: " ++ httpErrStr c m]⟩) ∧
    (∀ m, env (repoUrl (s "SysML-v2-API-Services")) = .transportFailure m →
      (mainRun env fuel).2 = .ok ⟨1, [], [s "Network error: " ++ urlErrStr m]⟩) ∧
    (∀ fs hdrs ub c m,
      env (repoUrl (s "SysML-v2-API-Services")) = .success (.obj fs) hdrs →
      jLookup fs (s "default_branch") = some ub →
      env (buildUrl (forksUrl (s "SysML-v2-API-Services")) (some forkParams)) =
        .httpFailure c m →
      (mainRun env (fuel + 1)).2 =
        .ok ⟨1, [], [s "GitHub API request failed: " ++ httpErrStr c m]⟩) ∧
    (∀ t data sorted, collect_fork_data env fuel = (t, .ok data) →
      sortRecords data = .ok sorted →
      mainRun env fuel = (t, .ok ⟨0, csvOutput sorted, []⟩)) := by
  refine ⟨?_, ?_, ?_, ?_⟩
  · intro c m h
    simp [mainRun, mainResult, collect_fork_data, REPOSITORIES, collectRepos, collectRepo,
      request, buildUrl, h, Tr.bind]
  · intro m h
    simp [mainRun, mainResult, collect_fork_data, REPOSITORIES, collectRepos, collectRepo,
      request, buildUrl, h, Tr.bind]
  · intro fs hdrs ub c m h1 h2 h3
    simp [mainRun, mainResult, collect_fork_data, REPOSITORIES, collectRepos, collectRepo,
      request, buildUrl_none, h1, h2, h3, Tr.bind, Tr.lift, pySubscript, forkPages]
  · intro t data sorted h1 h2
    simp [mainRun, mainResult, h1, h2]

/-- Environment whose first required request fails with HTTP 500. -/
def envDown1 : Env := fun u =>
  if u = repoUrl (s "SysML-v2-API-Services") then .httpFailure 500 (s "Server Error")
  else .transportFailure (s "unreachable")

/-- Environment in which all three repositories answer and none has forks. -/
def envOk : Env := fun u =>
  if u = repoUrl (s "SysML-v2-API-Services") then
    .success (.obj [(s "default_branch", .str (s "main"))]) []
  else if u = repoUrl (s "SysML-v2-Pilot-Implementation") then
    .success (.obj [(s "default_branch", .str (s "main"))]) []
  else if u = repoUrl (s "SysML-v2-Release") then
    .success (.obj [(s "default_branch", .str (s "main"))]) []
  else if u = buildUrl (forksUrl (s "SysML-v2-API-Services")) (some forkParams) then
    .success (.arr []) []
  else if u = buildUrl (forksUrl (s "SysML-v2-Pilot-Implementation")) (some forkParams) then
    .success (.arr []) []
  else if u = buildUrl (forksUrl (s "SysML-v2-Release")) (some forkParams) then
    .success (.arr []) []
  else .transportFailure (s "unreachable")

theorem C5_witness :
    (mainRun envDown1 4).2 =
      .ok ⟨1, [], [s "GitHub API request failed: " ++ httpErrStr 500 (s "Server Error")]⟩ ∧
    mainRun envOk 4 = ((collect_fork_data envOk 4).1, .ok ⟨0, csvOutput [], []⟩) := by
  constructor
  · exact (C5_top_level envDown1 4).1 500 (s "Server Error") (by rfl)
  · exact (C5_top_level envOk 4).2.2.2 (collect_fork_data envOk 4).1 [] [] (by rfl) (by rfl)

/-- C1 counterexample: in envBranchDown the per-fork branch lookup fails at
the transport level (URLError, not HTTPError).  The Collector does not
catch it: collect_fork_data propagates the URLError, the run aborts with
exit 1, and nothing at all is written to stdout, so no row is emitted for
the fork.  This refutes the claim that transport failures of per-fork
sub-fetches are converted to placeholder data. -/
theorem C1_counterexample :
    (collect_fork_data envBranchDown 9).2 =
      .error (.urlError (s "fork branch unreachable")) ∧
    (mainRun envBranchDown 9).2 =
      .ok ⟨1, [], [s "Network error: " ++ urlErrStr (s "fork branch unreachable")]⟩ :=
  ⟨rfl, rfl⟩

/-- C1 amended: only HTTPError (a non-2xx API response) on the per-fork
branch and comparison sub-fetches is caught at the Collector boundary and
converted to placeholder data (empty last_commit_date, sentinel
notable_diffs), with exactly one fully-populated record still produced for
the fork; a transport failure on a per-fork sub-fetch is not caught there,
and the URLError it raises aborts the run at the top level with exit 1 and
no data rows. -/
theorem C1_perfork_failures (env : Env) (rn : Str) (ub : Json)
    (fk : List (Str × Json)) (ow db st nm : Json)
    (how : jPath (.obj fk) [s "owner", s "login"] = .ok ow)
    (hdb : pyGetOrStr (.obj fk) (s "default_branch") (s "main") = .ok db)
    (hst : pyGet (.obj fk) (s "stargazers_count") (.num 0) = .ok st)
    (hnm : pySubscript (.obj fk) (s "name") = .ok nm) :
    (∀ c1 m1 c2 m2,
      env (branchUrl ow nm db) = .httpFailure c1 m1 →
      env (compareUrl rn ub ow db) = .httpFailure c2 m2 →
      processForkItem env rn ub (.obj fk) =
        ([branchUrl ow nm db, compareUrl rn ub ow db],
         .ok ⟨rn, ow, db, .str [], st, s "<compare failed>"⟩)) ∧
    (∀ m, env (branchUrl ow nm db) = .transportFailure m →
      (processForkItem env rn ub (.obj fk)).2 = .error (.urlError m)) ∧
    (∀ (env2 : Env) (fuel : Nat) (t : List Str) (m : Str),
      collect_fork_data env2 fuel = (t, .error (.urlError m)) →
      mainRun env2 fuel = (t, .ok ⟨1, [], [s "Network error: " ++ urlErrStr m]⟩)) := by
  refine ⟨?_, ?_, ?_⟩
  · intro c1 m1 c2 m2 h1 h2
    simp [processForkItem, Tr.bind, Tr.lift, how, hdb, hst, hnm,
      branchFetch, compareFetch, request, buildUrl_none, h1, h2, pyJoin, Tr.pure]
  · intro m h1
    simp [processForkItem, Tr.bind, Tr.lift, how, hdb, hst, hnm,
      branchFetch, request, buildUrl_none, h1]
  · intro env2 fuel t m h
    simp [mainRun, mainResult, h]

/-- Fork-item fields used by the C1 witness. -/
def wForkFields : List (Str × Json) :=
  [(s "owner", .obj [(s "login", .str (s "alice"))]),
   (s "name", .str (s "F")),
   (s "default_branch", .str (s "dev")),
   (s "stargazers_count", .num 5)]

/-- Environment in which both per-fork sub-fetches answer 404. -/
def envPF : Env := fun u =>
  if u = branchUrl (.str (s "alice")) (.str (s "F")) (.str (s "dev")) then
    .httpFailure 404 (s "Not Found")
  else if u = compareUrl (s "R") (.str (s "main")) (.str (s "alice")) (.str (s "dev")) then
    .httpFailure 404 (s "Not Found")
  else .transportFailure (s "unreachable")

theorem C1_witness :
    processForkItem envPF (s "R") (.str (s "main")) (.obj wForkFields) =
      ([branchUrl (.str (s "alice")) (.str (s "F")) (.str (s "dev")),
        compareUrl (s "R") (.str (s "main")) (.str (s "alice")) (.str (s "dev"))],
       .ok ⟨s "R", .str (s "alice"), .str (s "dev"), .str [], .num 5,
            s "<compare failed>"⟩) :=
  (C1_perfork_failures envPF (s "R") (.str (s "main")) wForkFields
    (.str (s "alice")) (.str (s "dev")) (.num 5) (.str (s "F"))
    (by rfl) (by rfl) (by rfl) (by rfl)).1
    404 (s "Not Found") 404 (s "Not Found") (by rfl) (by rfl)

/-- One page of the forks enumeration as the remote serves it: the JSON
array items and the response headers. -/
structure Page where
  items : List Json
  hdrs : List (Str × Str)

/-- The next-page cursor a page carries in its link header. -/
def nextUrlOf (p : Page) : Option Str := parseLink (headerGet p.hdrs (s "Link"))

/-- The environment serves, starting at request URL u, exactly this finite
chain of pages: each page is a JSON array, every page but the last carries
a nonempty next cursor naming the following request, and the last page
carries none. -/
inductive Serves (env : Env) : Str → List Page → Prop
  | last (u : Str) (p : Page) :
      env u = .success (.arr p.items) p.hdrs → nextUrlOf p = none →
      Serves env u [p]
  | cons (u u2 : Str) (p : Page) (ps : List Page) :
      env u = .success (.arr p.items) p.hdrs → nextUrlOf p = some u2 → u2 ≠ [] →
      Serves env u2 ps → Serves env u (p :: ps)

/-- The record the collector produces for a fork item (meaningful when the
per-fork processing succeeds). -/
def resOf (env : Env) (rn : Str) (ub : Json) (it : Json) : Record :=
  match (processForkItem env rn ub it).2 with
  | .ok r => r
  | .error _ => default

/-- The full request trace of the fused pagination loop over a chain of
pages: exactly one page request per page, each followed by the sub-requests
of its items. -/
def pagesTrace (env : Env) (rn : Str) (ub : Json) : Str → List Page → List Str
  | _, [] => []
  | u, p :: ps =>
    u :: ((processItems env rn ub p.items).1 ++
      pagesTrace env rn ub ((nextUrlOf p).getD []) ps)

theorem processItems_ok (env : Env) (rn : Str) (ub : Json) (its : List Json)
    (h : ∀ it ∈ its, ∃ r, (processForkItem env rn ub it).2 = .ok r) :
    (processItems env rn ub its).2 = .ok (its.map (resOf env rn ub)) := by
  induction its with
  | nil => rfl
  | cons it rest ih =>
    obtain ⟨r, hp⟩ := h it (List.mem_cons_self it rest)
    have ih' := ih (fun x hx => h x (List.mem_cons_of_mem it hx))
    have hres : resOf env rn ub it = r := by simp [resOf, hp]
    cases hpi : processForkItem env rn ub it with
    | mk t1 r1 =>
      cases hpr : processItems env rn ub rest with
      | mk t2 r2 =>
        have e1 : r1 = .ok r := by rw [hpi] at hp; exact hp
        have e2 : r2 = .ok (rest.map (resOf env rn ub)) := by rw [hpr] at ih'; exact ih'
        subst e1 e2
        simp [processItems, hpi, hpr, Tr.bind, Tr.pure, hres]

theorem forkPages_serves (env : Env) (rn : Str) (ub : Json)
    (pages : List Page) (U : Str) (hs : Serves env U pages) :
    (∀ it ∈ (pages.map Page.items).flatten,
      ∃ r, (processForkItem env rn ub it).2 = .ok r) →
    ∀ (fuel : Nat), pages.length ≤ fuel →
    ∀ (url : Str) (ps : Option (List (Str × Str))), buildUrl url ps = U →
      forkPages env rn ub fuel url ps =
        (pagesTrace env rn ub U pages,
         .ok (((pages.map Page.items).flatten).map (resOf env rn ub))) := by
  induction hs with
  | last u p henv hnext =>
    intro hok fuel hfuel url ps hbuild
    cases fuel with
    | zero => simp at hfuel
    | succ f =>
      have hreq : request env url ps = ([u], .ok (.arr p.items, p.hdrs)) := by
        simp [request, hbuild, henv]
      have hok1 : ∀ it ∈ p.items, ∃ r, (processForkItem env rn ub it).2 = .ok r := by
        intro it hit
        exact hok it (by simp [hit])
      cases hpr : processItems env rn ub p.items with
      | mk t2 r2 =>
        have e2 : r2 = .ok (p.items.map (resOf env rn ub)) := by
          have := processItems_ok env rn ub p.items hok1
          rw [hpr] at this; exact this
        subst e2
        have hn : parseLink (headerGet p.hdrs (s "Link")) = none := hnext
        simp [forkPages, hreq, Tr.bind, Tr.pure, hpr, hn, pagesTrace]
  | cons u u2 p ps' henv hnext hne hs' ih =>
    intro hok fuel hfuel url ps hbuild
    cases fuel with
    | zero => simp at hfuel
    | succ f =>
      have hf : ps'.length ≤ f := by simpa using hfuel
      have hreq : request env url ps = ([u], .ok (.arr p.items, p.hdrs)) := by
        simp [request, hbuild, henv]
      have hok1 : ∀ it ∈ p.items, ∃ r, (processForkItem env rn ub it).2 = .ok r := by
        intro it hit
        exact hok it (by simp [hit])
      have hok2 : ∀ it ∈ (ps'.map Page.items).flatten,
          ∃ r, (processForkItem env rn ub it).2 = .ok r := by
        intro it hit
        exact hok it (by simp [hit])
      have ihx := ih hok2 f hf u2 none (buildUrl_none u2)
      cases hpr : processItems env rn ub p.items with
      | mk t2 r2 =>
        have e2 : r2 = .ok (p.items.map (resOf env rn ub)) := by
          have := processItems_ok env rn ub p.items hok1
          rw [hpr] at this; exact this
        subst e2
        have hn : parseLink (headerGet p.hdrs (s "Link")) = some u2 := hnext
        have hie : u2.isEmpty = false := by
          cases u2 with
          | nil => exact absurd rfl hne
          | cons a as => rfl
        simp [forkPages, hreq, Tr.bind, Tr.pure, hpr, hn, hie, ihx, pagesTrace, hnext]

/-- C2: over any served chain of pages (each page but the last carrying a
nonempty next cursor, the last carrying none), and provided each fork item
processes without an uncaught per-fork error, the fused pagination loop
returns exactly one record per fork item, in page-then-item order, with no
item dropped or duplicated (the result is the concatenation of the pages'
item lists mapped to their records, and its length equals the total item
count); the request trace is pagesTrace, which performs exactly one page
request per served page; and any fuel bound at least the page count gives
this same completed result, i.e. the loop terminates exactly at the page
with no next cursor. -/
theorem C2_pagination (env : Env) (rn : Str) (ub : Json) (pages : List Page)
    (url : Str) (ps : Option (List (Str × Str))) (fuel : Nat)
    (hs : Serves env (buildUrl url ps) pages)
    (hok : ∀ it ∈ (pages.map Page.items).flatten,
      ∃ r, (processForkItem env rn ub it).2 = .ok r)
    (hfuel : pages.length ≤ fuel) :
    forkPages env rn ub fuel url ps =
      (pagesTrace env rn ub (buildUrl url ps) pages,
       .ok (((pages.map Page.items).flatten).map (resOf env rn ub))) ∧
    ∀ rs, (forkPages env rn ub fuel url ps).2 = .ok rs →
      rs.length = ((pages.map Page.items).flatten).length := by
  have main := forkPages_serves env rn ub pages (buildUrl url ps) hs hok fuel hfuel url ps rfl
  refine ⟨main, ?_⟩
  intro rs hrs
  rw [main] at hrs
  cases hrs
  exact List.length_map _ _

/-- C2 witness environment: two pages of one fork each, the first page
carrying a rel=next cursor, the second none; the per-fork sub-fetches
answer 404 and degrade to placeholders. -/
def envC2 : Env := fun u =>
  if u = buildUrl (forksUrl (s "R")) (some forkParams) then
    .success (.arr [.obj [
      (s "owner", .obj [(s "login", .str (s "alice"))]),
      (s "name", .str (s "F")),
      (s "default_branch", .str (s "dev")),
      (s "stargazers_count", .num 5)]])
      [(s "Link", s "<https://api.github.com/repositories/1/forks?page=2>; rel=\"next\"")]
  else if u = s "https://api.github.com/repositories/1/forks?page=2" then
    .success (.arr [.obj [
      (s "owner", .obj [(s "login", .str (s "bob"))]),
      (s "name", .str (s "G")),
      (s "default_branch", .str (s "main")),
      (s "stargazers_count", .num 2)]]) []
  else .httpFailure 404 (s "Not Found")

/-- The two pages envC2 serves. -/
def wPage1 : Page :=
  ⟨[.obj [
      (s "owner", .obj [(s "login", .str (s "alice"))]),
      (s "name", .str (s "F")),
      (s "default_branch", .str (s "dev")),
      (s "stargazers_count", .num 5)]],
   [(s "Link", s "<https://api.github.com/repositories/1/forks?page=2>; rel=\"next\"")]⟩

def wPage2 : Page :=
  ⟨[.obj [
      (s "owner", .obj [(s "login", .str (s "bob"))]),
      (s "name", .str (s "G")),
      (s "default_branch", .str (s "main")),
      (s "stargazers_count", .num 2)]], []⟩

theorem C2_witness :
    forkPages envC2 (s "R") (.str (s "main")) 2 (forksUrl (s "R")) (some forkParams) =
      (pagesTrace envC2 (s "R") (.str (s "main"))
        (buildUrl (forksUrl (s "R")) (some forkParams)) [wPage1, wPage2],
       .ok ((([wPage1, wPage2].map Page.items).flatten).map
        (resOf envC2 (s "R") (.str (s "main"))))) ∧
    (forkPages envC2 (s "R") (.str (s "main")) 2 (forksUrl (s "R")) (some forkParams)).2 =
      .ok [⟨s "R", .str (s "alice"), .str (s "dev"), .str [], .num 5, s "<compare failed>"⟩,
           ⟨s "R", .str (s "bob"), .str (s "main"), .str [], .num 2, s "<compare failed>"⟩] := by
  have hserv : Serves envC2 (buildUrl (forksUrl (s "R")) (some forkParams))
      [wPage1, wPage2] := by
    apply Serves.cons _ (s "https://api.github.com/repositories/1/forks?page=2")
    · rfl
    · rfl
    · decide
    · exact Serves.last _ _ rfl rfl
  have h := C2_pagination envC2 (s "R") (.str (s "main")) [wPage1, wPage2]
    (forksUrl (s "R")) (some forkParams) 2 hserv
    (by
      intro it hit
      simp [wPage1, wPage2] at hit
      rcases hit with h1 | h1 <;> subst h1 <;> exact ⟨_, rfl⟩)
    (by decide)
  refine ⟨h.1, ?_⟩
  rw [h.1]
  rfl

/-- Two response sets agree on a list of request URLs. -/
def agrees (e1 e2 : Env) (t : List Str) : Prop := ∀ u ∈ t, e1 u = e2 u

theorem agrees_append (e1 e2 : Env) (t1 t2 : List Str) :
    agrees e1 e2 (t1 ++ t2) ↔ agrees e1 e2 t1 ∧ agrees e1 e2 t2 := by
  simp [agrees, List.mem_append, or_imp, forall_and]

theorem Tr.bind_det {α β : Type} (e1 e2 : Env) (x1 x2 : Tr α) (f1 f2 : α → Tr β)
    (hx : agrees e1 e2 x1.1 → x2 = x1)
    (hf : ∀ a, x1.2 = .ok a → agrees e1 e2 (f1 a).1 → f2 a = f1 a)
    (h : agrees e1 e2 (Tr.bind x1 f1).1) : Tr.bind x2 f2 = Tr.bind x1 f1 := by
  cases x1 with
  | mk t r =>
    cases r with
    | error e =>
      have hagree : agrees e1 e2 t := h
      rw [hx hagree]
      rfl
    | ok a =>
      have h' := h
      rw [show (Tr.bind (t, Except.ok a) f1).1 = t ++ (f1 a).1 from rfl,
        agrees_append] at h'
      rw [hx h'.1, Tr.bind_mk_ok, Tr.bind_mk_ok, hf a rfl h'.2]

theorem request_det (e1 e2 : Env) (url : Str) (ps : Option (List (Str × Str)))
    (h : agrees e1 e2 (request e1 url ps).1) : request e2 url ps = request e1 url ps := by
  have hu : e1 (buildUrl url ps) = e2 (buildUrl url ps) :=
    h (buildUrl url ps) (by simp [request])
  simp [request, ← hu]

theorem branchFetch_trace (env : Env) (u : Str) :
    (branchFetch env u).1 = (request env u none).1 := by
  unfold branchFetch
  cases request env u none with
  | mk t r =>
    cases r with
    | ok a => cases a with | mk b hd => rfl
    | error e => cases e <;> rfl

theorem branchFetch_det (e1 e2 : Env) (u : Str)
    (h : agrees e1 e2 (branchFetch e1 u).1) : branchFetch e2 u = branchFetch e1 u := by
  have hreq := request_det e1 e2 u none (by rw [← branchFetch_trace]; exact h)
  unfold branchFetch
  rw [hreq]

theorem compareFetch_trace (env : Env) (u : Str) :
    (compareFetch env u).1 = (request env u none).1 := by
  unfold compareFetch
  cases request env u none with
  | mk t r =>
    cases r with
    | ok a => cases a with | mk b hd => rfl
    | error e => cases e <;> rfl

theorem compareFetch_det (e1 e2 : Env) (u : Str)
    (h : agrees e1 e2 (compareFetch e1 u).1) : compareFetch e2 u = compareFetch e1 u := by
  have hreq := request_det e1 e2 u none (by rw [← compareFetch_trace]; exact h)
  unfold compareFetch
  rw [hreq]

theorem processForkItem_det (e1 e2 : Env) (rn : Str) (ub : Json) (fork : Json)
    (h : agrees e1 e2 (processForkItem e1 rn ub fork).1) :
    processForkItem e2 rn ub fork = processForkItem e1 rn ub fork := by
  unfold processForkItem
  refine Tr.bind_det e1 e2 _ _ _ _ (fun _ => rfl) ?_ h
  intro ow _ h1
  refine Tr.bind_det e1 e2 _ _ _ _ (fun _ => rfl) ?_ h1
  intro db _ h2
  refine Tr.bind_det e1 e2 _ _ _ _ (fun _ => rfl) ?_ h2
  intro st _ h3
  refine Tr.bind_det e1 e2 _ _ _ _ (fun _ => rfl) ?_ h3
  intro nm _ h4
  refine Tr.bind_det e1 e2 _ _ _ _ (fun hg => branchFetch_det e1 e2 _ hg) ?_ h4
  intro cd _ h5
  refine Tr.bind_det e1 e2 _ _ _ _ (fun hg => compareFetch_det e1 e2 _ hg) ?_ h5
  intro nd _ h6
  refine Tr.bind_det e1 e2 _ _ _ _ (fun _ => rfl) ?_ h6
  intro j _ h7
  rfl

theorem processItems_det (e1 e2 : Env) (rn : Str) (ub : Json) (its : List Json)
    (h : agrees e1 e2 (processItems e1 rn ub its).1) :
    processItems e2 rn ub its = processItems e1 rn ub its := by
  induction its with
  | nil => rfl
  | cons it rest ih =>
    simp only [processItems] at h ⊢
    refine Tr.bind_det e1 e2 _ _ _ _
      (fun hg => processForkItem_det e1 e2 rn ub it hg) ?_ h
    intro r _ h1
    refine Tr.bind_det e1 e2 _ _ _ _ (fun hg => ih hg) ?_ h1
    intro rs _ h2
    rfl


theorem forkPages_det (e1 e2 : Env) (rn : Str) (ub : Json) (fuel : Nat) :
    ∀ (url : Str) (ps : Option (List (Str × Str))),
      agrees e1 e2 (forkPages e1 rn ub fuel url ps).1 →
      forkPages e2 rn ub fuel url ps = forkPages e1 rn ub fuel url ps := by
  induction fuel with
  | zero => intro url ps _; rfl
  | succ f ih =>
    intro url ps h
    simp only [forkPages] at h ⊢
    refine Tr.bind_det e1 e2 _ _ _ _ (fun hg => request_det e1 e2 url ps hg) ?_ h
    intro bh _ hg1
    obtain ⟨body, hdrs⟩ := bh
    cases body with
    | arr items =>
      dsimp only at hg1 ⊢
      refine Tr.bind_det e1 e2 _ _ _ _
        (fun hg => processItems_det e1 e2 rn ub items hg) ?_ hg1
      intro recs _ hg2
      revert hg2
      cases parseLink (headerGet hdrs (s "Link")) with
      | none =>
        intro _
        show Tr.pure recs = Tr.pure recs
        rfl
      | some u =>
        intro hg2
        cases u with
        | nil =>
          show Tr.pure recs = Tr.pure recs
          rfl
        | cons c cs =>
          have hg2a : agrees e1 e2 (Tr.bind (forkPages e1 rn ub f (c :: cs) none)
              (fun more => Tr.pure (recs ++ more))).1 := hg2
          show Tr.bind (forkPages e2 rn ub f (c :: cs) none)
              (fun more => Tr.pure (recs ++ more)) =
            Tr.bind (forkPages e1 rn ub f (c :: cs) none)
              (fun more => Tr.pure (recs ++ more))
          refine Tr.bind_det e1 e2 _ _ _ _ (fun hg => ih (c :: cs) none hg) ?_ hg2a
          intro more _ _
          rfl
    | null =>
      show Tr.lift (Except.error (PyErr.valueError (s "Expected list response for pagination"))) =
        Tr.lift (Except.error (PyErr.valueError (s "Expected list response for pagination")))
      rfl
    | bool b =>
      show Tr.lift (Except.error (PyErr.valueError (s "Expected list response for pagination"))) =
        Tr.lift (Except.error (PyErr.valueError (s "Expected list response for pagination")))
      rfl
    | num n =>
      show Tr.lift (Except.error (PyErr.valueError (s "Expected list response for pagination"))) =
        Tr.lift (Except.error (PyErr.valueError (s "Expected list response for pagination")))
      rfl
    | str t =>
      show Tr.lift (Except.error (PyErr.valueError (s "Expected list response for pagination"))) =
        Tr.lift (Except.error (PyErr.valueError (s "Expected list response for pagination")))
      rfl
    | obj fs =>
      show Tr.lift (Except.error (PyErr.valueError (s "Expected list response for pagination"))) =
        Tr.lift (Except.error (PyErr.valueError (s "Expected list response for pagination")))
      rfl

theorem collectRepo_det (e1 e2 : Env) (fuel : Nat) (rn : Str)
    (h : agrees e1 e2 (collectRepo e1 fuel rn).1) :
    collectRepo e2 fuel rn = collectRepo e1 fuel rn := by
  unfold collectRepo
  refine Tr.bind_det e1 e2 _ _ _ _ (fun hg => request_det e1 e2 _ none hg) ?_ h
  intro bh _ h1
  refine Tr.bind_det e1 e2 _ _ _ _ (fun _ => rfl) ?_ h1
  intro ub _ h2
  exact forkPages_det e1 e2 rn ub fuel _ _ h2

theorem collectRepos_det (e1 e2 : Env) (fuel : Nat) (rns : List Str)
    (h : agrees e1 e2 (collectRepos e1 fuel rns).1) :
    collectRepos e2 fuel rns = collectRepos e1 fuel rns := by
  induction rns with
  | nil => rfl
  | cons rn rest ih =>
    simp only [collectRepos] at h ⊢
    refine Tr.bind_det e1 e2 _ _ _ _ (fun hg => collectRepo_det e1 e2 fuel rn hg) ?_ h
    intro rs _ h1
    refine Tr.bind_det e1 e2 _ _ _ _ (fun hg => ih hg) ?_ h1
    intro more _ h2
    rfl

theorem collect_fork_data_det (e1 e2 : Env) (fuel : Nat)
    (h : agrees e1 e2 (collect_fork_data e1 fuel).1) :
    collect_fork_data e2 fuel = collect_fork_data e1 fuel :=
  collectRepos_det e1 e2 fuel REPOSITORIES h

/-- C9: the pipeline is deterministic and consults nothing but the
responses to the requests it makes.  If two response sets agree on every
URL the first run requests (its trace), the two runs are equal in full:
same request trace and same outcome, and in particular two successful runs
produce byte-identical bytes on the data stream (second conjunct). -/
theorem C9_determinism (e1 e2 : Env) (fuel : Nat)
    (h : agrees e1 e2 (mainRun e1 fuel).1) :
    mainRun e2 fuel = mainRun e1 fuel ∧
    ∀ r1 r2 : RunOut, (mainRun e1 fuel).2 = .ok r1 → (mainRun e2 fuel).2 = .ok r2 →
      r2.stdout = r1.stdout := by
  have hc : collect_fork_data e2 fuel = collect_fork_data e1 fuel :=
    collect_fork_data_det e1 e2 fuel h
  have hm : mainRun e2 fuel = mainRun e1 fuel := by
    unfold mainRun
    rw [hc]
  refine ⟨hm, ?_⟩
  intro r1 r2 h1 h2
  rw [hm, h1] at h2
  cases h2
  rfl

/-- An environment equal to envOk except on a URL the run never requests. -/
def envOk2 : Env := fun u =>
  if u = s "https://unused.example" then .httpFailure 418 (s "teapot") else envOk u

theorem C9_witness :
    mainRun envOk2 4 = mainRun envOk 4 ∧
    ∀ r1 r2 : RunOut, (mainRun envOk 4).2 = .ok r1 → (mainRun envOk2 4).2 = .ok r2 →
      r2.stdout = r1.stdout := by
  refine C9_determinism envOk envOk2 4 ?_
  intro u hu
  have htr : (mainRun envOk 4).1 =
      [repoUrl (s "SysML-v2-API-Services"),
       buildUrl (forksUrl (s "SysML-v2-API-Services")) (some forkParams),
       repoUrl (s "SysML-v2-Pilot-Implementation"),
       buildUrl (forksUrl (s "SysML-v2-Pilot-Implementation")) (some forkParams),
       repoUrl (s "SysML-v2-Release"),
       buildUrl (forksUrl (s "SysML-v2-Release")) (some forkParams)] := rfl
  rw [htr] at hu
  fin_cases hu <;> rfl
